import Mathlib

/-!
Shallow embedding of the campaign delivery engine of `mp_loyality_bot`
(`src/loyalty_bot/db/repo.py`, `src/loyalty_bot/worker/app.py`,
`src/loyalty_bot/bot/routers/payments.py`).

Tables are lists of rows; `now()` is a fixed timestamp carried in the state
(integer seconds); SQL `SERIAL` ids are explicit counters.  Statuses are the
literal strings the source compares against.  Each repository function that
runs inside a database transaction is embedded as a pure state transformer
that returns the unchanged state when the source raises (rollback).
-/

namespace LoyaltyBot

/-- Row of table `sellers` (columns used by the engine). -/
structure Seller where
  id : Nat
  tg_user_id : Nat
deriving Repr, DecidableEq

/-- Row of table `seller_credits` (materialized balance per seller). -/
structure SellerCredit where
  seller_id : Nat
  balance : Int
deriving Repr, DecidableEq

/-- Row of table `seller_credit_transactions` (append-only ledger). -/
structure CreditTx where
  seller_id : Nat
  delta : Int
  reason : String
  campaign_id : Option Nat
  tg_payment_charge_id : Option String
  provider_payment_charge_id : Option String
  invoice_payload : Option String
  balance_after : Int
deriving Repr, DecidableEq

/-- Row of table `customers`. -/
structure Customer where
  id : Nat
  tg_user_id : Nat
deriving Repr, DecidableEq

/-- Row of table `shops` (columns used by the engine). -/
structure Shop where
  id : Nat
  seller_id : Nat
  name : String
deriving Repr, DecidableEq

/-- Row of table `shop_customers` (audience membership with status). -/
structure ShopCustomer where
  shop_id : Nat
  customer_id : Nat
  status : String
deriving Repr, DecidableEq

/-- Row of table `campaigns` (columns used by the engine). -/
structure Campaign where
  id : Nat
  shop_id : Nat
  status : String
  text : String
  button_title : String
  url : String
  photo_file_id : Option String
  total_recipients : Int
  sent_count : Int
  failed_count : Int
  blocked_count : Int
deriving Repr, DecidableEq

/-- Row of table `campaign_deliveries`. -/
structure Delivery where
  id : Nat
  campaign_id : Nat
  customer_id : Nat
  status : String
  attempt_count : Int
  next_attempt_at : Int
  sent_at : Option Int
  last_error : Option String
  tg_message_id : Option Nat
deriving Repr, DecidableEq

/-- The database state seen by the engine.  `now` models `now()` for the
duration of one repository call; `next_seller_id` / `next_delivery_id` model
the `SERIAL` sequences. -/
structure Db where
  now : Int
  next_seller_id : Nat
  next_delivery_id : Nat
  sellers : List Seller
  seller_credits : List SellerCredit
  credit_txs : List CreditTx
  customers : List Customer
  shops : List Shop
  shop_customers : List ShopCustomer
  campaigns : List Campaign
  deliveries : List Delivery
deriving Repr, DecidableEq

/-- `_DEFAULT_FREE_CREDITS_ON_SIGNUP` in `db/repo.py`. -/
def DEFAULT_FREE_CREDITS_ON_SIGNUP : Int := 3

/-- Second half of `ensure_seller` (`db/repo.py`): insert the
`seller_credits` row with the free balance on first creation
(`ON CONFLICT (seller_id) DO NOTHING`), and if it was created now, write the
`free_signup` ledger row in the same transaction. -/
def ensure_seller_credits_row (db : Db) (seller_id : Nat) : Db :=
  if db.seller_credits.any (fun sc => sc.seller_id == seller_id) then db
  else
    let tx : CreditTx :=
      { seller_id := seller_id
        delta := DEFAULT_FREE_CREDITS_ON_SIGNUP
        reason := "free_signup"
        campaign_id := none
        tg_payment_charge_id := none
        provider_payment_charge_id := none
        invoice_payload := none
        balance_after := DEFAULT_FREE_CREDITS_ON_SIGNUP }
    let sc : SellerCredit := { seller_id := seller_id, balance := DEFAULT_FREE_CREDITS_ON_SIGNUP }
    { db with
      seller_credits := db.seller_credits ++ [sc]
      credit_txs := db.credit_txs ++ [tx] }

/-- `ensure_seller` (`db/repo.py`): upsert the seller by Telegram user id,
returning its id, then ensure the credits row (granting the free signup
balance exactly once). -/
def ensure_seller (db : Db) (tg_user_id : Nat) : Nat × Db :=
  match db.sellers.find? (fun s => s.tg_user_id == tg_user_id) with
  | some s => (s.id, ensure_seller_credits_row db s.id)
  | none =>
      let sid := db.next_seller_id
      let db1 := { db with
        sellers := db.sellers ++ [{ id := sid, tg_user_id := tg_user_id }],
        next_seller_id := sid + 1 }
      (sid, ensure_seller_credits_row db1 sid)

/-- `get_seller_credits` (`db/repo.py`): balance looked up through the
`sellers` join, `0` when no row exists. -/
def get_seller_credits (db : Db) (seller_tg_user_id : Nat) : Int :=
  match db.sellers.find? (fun s => s.tg_user_id == seller_tg_user_id) with
  | none => 0
  | some s =>
      match db.seller_credits.find? (fun sc => sc.seller_id == s.id) with
      | none => 0
      | some sc => sc.balance

/-- `add_seller_credits` (`db/repo.py`): `delta = 0` is a read-only no-op;
otherwise one transaction updates the balance (raising
`seller_credits_missing` when the row is absent, which rolls back) and inserts
the ledger row with the `balance_after` snapshot. -/
def add_seller_credits (db : Db) (seller_id : Nat) (delta : Int) (reason : String)
    (invoice_payload tg_payment_charge_id provider_payment_charge_id : Option String)
    (campaign_id : Option Nat) : Except String (Int × Db) :=
  if delta == 0 then
    match db.seller_credits.find? (fun sc => sc.seller_id == seller_id) with
    | some sc => .ok (sc.balance, db)
    | none => .ok (0, db)
  else
    match db.seller_credits.find? (fun sc => sc.seller_id == seller_id) with
    | none => .error "seller_credits_missing"
    | some sc =>
        let new_balance := sc.balance + delta
        let tx : CreditTx :=
          { seller_id := seller_id
            delta := delta
            reason := reason
            campaign_id := campaign_id
            tg_payment_charge_id := tg_payment_charge_id
            provider_payment_charge_id := provider_payment_charge_id
            invoice_payload := invoice_payload
            balance_after := new_balance }
        let credits := db.seller_credits.map (fun r =>
          if r.seller_id == seller_id then { r with balance := r.balance + delta } else r)
        .ok (new_balance, { db with seller_credits := credits, credit_txs := db.credit_txs ++ [tx] })

/-- `has_seller_credit_tx_by_tg_charge_id` (`db/repo.py`): false on an
empty/absent charge id, otherwise an existence query on the ledger. -/
def has_seller_credit_tx_by_tg_charge_id (db : Db) (seller_id : Nat)
    (tg_payment_charge_id : Option String) : Bool :=
  match tg_payment_charge_id with
  | none => false
  | some c =>
      if c = "" then false
      else db.credit_txs.any (fun tx =>
        tx.seller_id == seller_id && tx.tg_payment_charge_id == some c)

/-- The `credits_pack` branch of the `successful_payment` handler
(`bot/routers/payments.py` lines 203..241): ensure the seller, skip the grant
when a ledger row with this Telegram charge id already exists (returning the
current balance), otherwise grant `qty` credits recording the charge id. -/
def successful_payment_credits_pack (db : Db) (tg_user_id : Nat) (qty : Nat)
    (invoice_payload telegram_payment_charge_id provider_payment_charge_id : String) :
    Except String (Int × Db) :=
  let r := ensure_seller db tg_user_id
  let seller_id := r.1
  let db1 := r.2
  if has_seller_credit_tx_by_tg_charge_id db1 seller_id (some telegram_payment_charge_id) then
    .ok (get_seller_credits db1 tg_user_id, db1)
  else
    add_seller_credits db1 seller_id (Int.ofNat qty) ("payment_pack_" ++ toString qty)
      (some invoice_payload) (some telegram_payment_charge_id)
      (some provider_payment_charge_id) none

/-- The row-locking ownership lookup at the head of `start_campaign_sending`
(`db/repo.py`): `campaigns JOIN shops JOIN sellers` filtered by the actor's
Telegram user id and the campaign id; yields the campaign row and the owning
seller id. -/
def findCampaignForSeller (db : Db) (seller_tg_user_id : Nat) (campaign_id : Nat) :
    Option (Campaign × Nat) :=
  (db.campaigns.find? (fun c => c.id == campaign_id)).bind fun c =>
  (db.shops.find? (fun sh => sh.id == c.shop_id)).bind fun sh =>
  (db.sellers.find? (fun s => s.id == sh.seller_id)).bind fun s =>
  if s.tg_user_id == seller_tg_user_id then some (c, s.id) else none

/-- The conditional one-credit spend inside `start_campaign_sending`
(`db/repo.py`): `UPDATE seller_credits SET balance = balance - 1 WHERE
seller_id = $1 AND balance > 0 RETURNING balance`; `none` when no row
qualifies (the `no_credits` case). -/
def spend_one_credit (credits : List SellerCredit) (seller_id : Nat) :
    Option (Int × List SellerCredit) :=
  match credits.find? (fun sc => sc.seller_id == seller_id && decide (0 < sc.balance)) with
  | none => none
  | some sc =>
      some (sc.balance - 1,
        credits.map (fun r =>
          if r.seller_id == seller_id && decide (0 < r.balance) then
            { r with balance := r.balance - 1 }
          else r))

/-- One audience member's contribution to the fan-out insert of
`start_campaign_sending` (`db/repo.py`): a `subscribed` member of the shop
gets a fresh `pending` delivery row unless one already exists for
`(campaign_id, customer_id)` (`ON CONFLICT DO NOTHING`).  New rows start
with `attempt_count` at the schema default 0 and are due immediately
(`next_attempt_at = now()`). -/
def enqueue_step (campaign_id shop_id : Nat) (acc : Db) (sc : ShopCustomer) : Db :=
  if sc.shop_id == shop_id && sc.status == "subscribed" then
    if acc.deliveries.any (fun d =>
        d.campaign_id == campaign_id && d.customer_id == sc.customer_id) then acc
    else
      let d : Delivery :=
        { id := acc.next_delivery_id
          campaign_id := campaign_id
          customer_id := sc.customer_id
          status := "pending"
          attempt_count := 0
          next_attempt_at := acc.now
          sent_at := none
          last_error := none
          tg_message_id := none }
      { acc with deliveries := acc.deliveries ++ [d],
                 next_delivery_id := acc.next_delivery_id + 1 }
  else acc

/-- The delivery fan-out insert inside `start_campaign_sending`
(`db/repo.py`): one `pending` row per `subscribed` member of the shop,
`ON CONFLICT (campaign_id, customer_id) DO NOTHING`. -/
def enqueue_deliveries (db : Db) (campaign_id shop_id : Nat) : Db :=
  db.shop_customers.foldl (enqueue_step campaign_id shop_id) db

/-- `start_campaign_sending` (`db/repo.py`): ownership lookup, status guards,
one-credit spend with its ledger row, idempotent fan-out, counter reset and
flip to `sending` — all in one transaction; any raise rolls everything back
(the original state is returned alongside the error). -/
def start_campaign_sending (db : Db) (seller_tg_user_id campaign_id : Nat) :
    Except String Nat × Db :=
  match findCampaignForSeller db seller_tg_user_id campaign_id with
  | none => (.error "campaign_not_found", db)
  | some (camp, seller_id) =>
      if camp.status == "sending" || camp.status == "completed" || camp.status == "sent" then
        (.error "campaign_already_started", db)
      else if camp.status == "canceled" || camp.status == "cancelled" then
        (.error "campaign_invalid_status", db)
      else
        match spend_one_credit db.seller_credits seller_id with
        | none => (.error "no_credits", db)
        | some (new_balance, credits) =>
            let tx : CreditTx :=
              { seller_id := seller_id
                delta := -1
                reason := "campaign_send"
                campaign_id := some campaign_id
                tg_payment_charge_id := none
                provider_payment_charge_id := none
                invoice_payload := none
                balance_after := new_balance }
            let db1 := { db with seller_credits := credits, credit_txs := db.credit_txs ++ [tx] }
            let db2 := enqueue_deliveries db1 campaign_id camp.shop_id
            let total := (db2.deliveries.filter (fun d => d.campaign_id == campaign_id)).length
            let db3 := { db2 with campaigns := db2.campaigns.map (fun c =>
              if c.id == campaign_id then
                { c with status := "sending", total_recipients := Int.ofNat total,
                         sent_count := 0, failed_count := 0, blocked_count := 0 }
              else c) }
            (.ok total, db3)

/-- The denormalized job dict built by `lease_due_deliveries` (`db/repo.py`).
The leased dict carries no `shop_name` key; `_process_delivery`
(`worker/app.py`) reads `item.get("shop_name")`, so the absent key is
modelled as an `Option` that the lease leaves at `none`. -/
structure DeliveryJob where
  delivery_id : Nat
  campaign_id : Nat
  customer_id : Nat
  attempt : Int
  tg_user_id : Nat
  text : String
  button_title : String
  url : String
  photo_file_id : Option String
  shop_name : Option String
deriving Repr, DecidableEq

/-- The `SELECT` of `lease_due_deliveries` (`db/repo.py`): `pending` rows due
now whose (inner-joined) parent campaign is `sending`, joined with the
recipient row. -/
def eligible_deliveries (db : Db) : List (Delivery × Campaign × Customer) :=
  db.deliveries.filterMap (fun d =>
    if d.status == "pending" && decide (d.next_attempt_at ≤ db.now) then
      match db.campaigns.find? (fun c => c.id == d.campaign_id) with
      | none => none
      | some c =>
          if c.status == "sending" then
            match db.customers.find? (fun cu => cu.id == d.customer_id) with
            | none => none
            | some cu => some (d, c, cu)
          else none
    else none)

/-- `ORDER BY d.next_attempt_at ASC, d.id ASC` as a total preorder on
joined rows. -/
def leaseLE (a b : Delivery × Campaign × Customer) : Prop :=
  a.1.next_attempt_at < b.1.next_attempt_at ∨
    (a.1.next_attempt_at = b.1.next_attempt_at ∧ a.1.id ≤ b.1.id)

instance : DecidableRel leaseLE := fun a b => by
  unfold leaseLE
  infer_instance

instance : IsTrans (Delivery × Campaign × Customer) leaseLE :=
  ⟨by intro a b c hab hbc; unfold leaseLE at *; omega⟩

instance : IsTotal (Delivery × Campaign × Customer) leaseLE :=
  ⟨by intro a b; unfold leaseLE; omega⟩

/-- The job dict built from one selected row in `lease_due_deliveries`
(`db/repo.py`): `attempt` is the post-increment count `attempt_count + 1`;
`photo_file_id` is normalized to `None` when empty; no `shop_name` key is
written. -/
def mkDeliveryJob (row : Delivery × Campaign × Customer) : DeliveryJob :=
  { delivery_id := row.1.id
    campaign_id := row.1.campaign_id
    customer_id := row.1.customer_id
    attempt := row.1.attempt_count + 1
    tg_user_id := row.2.2.tg_user_id
    text := row.2.1.text
    button_title := row.2.1.button_title
    url := row.2.1.url
    photo_file_id := match row.2.1.photo_file_id with
      | none => none
      | some s => if s = "" then none else some s
    shop_name := none }

/-- The row set selected by the `SELECT ... ORDER BY d.next_attempt_at ASC,
d.id ASC ... LIMIT $1` of `lease_due_deliveries` (`db/repo.py`): the
eligible rows sorted by `(next_attempt_at, id)` and limited to the batch
size (the sort key is total, so any sorting realization of `ORDER BY` gives
this result). -/
def leaseSelection (db : Db) (batch_size : Int) : List (Delivery × Campaign × Customer) :=
  (List.insertionSort leaseLE (eligible_deliveries db)).take batch_size.toNat

/-- `lease_due_deliveries` (`db/repo.py`): empty on a non-positive batch
size; otherwise select the due rows in `(next_attempt_at, id)` order limited
to `batch_size`, and in the same transaction bump `attempt_count` and push
`next_attempt_at` forward by `lease_seconds` for the selected ids. -/
def lease_due_deliveries (db : Db) (batch_size : Int) (lease_seconds : Int) :
    List DeliveryJob × Db :=
  if batch_size ≤ 0 then ([], db)
  else
    let rows := leaseSelection db batch_size
    let ids := rows.map (fun r => r.1.id)
    let deliveries := db.deliveries.map (fun d =>
      if ids.contains d.id then
        { d with attempt_count := d.attempt_count + 1,
                 next_attempt_at := db.now + lease_seconds }
      else d)
    (rows.map mkDeliveryJob, { db with deliveries := deliveries })

/-- `mark_delivery_sent` (`db/repo.py`): flip the row to `sent` recording the
message id, clear `last_error`, and bump the campaign's `sent_count`. -/
def mark_delivery_sent (db : Db) (delivery_id campaign_id tg_message_id : Nat) : Db :=
  { db with
    deliveries := db.deliveries.map (fun d =>
      if d.id == delivery_id then
        { d with status := "sent", sent_at := some db.now,
                 tg_message_id := some tg_message_id, last_error := none }
      else d)
    campaigns := db.campaigns.map (fun c =>
      if c.id == campaign_id then { c with sent_count := c.sent_count + 1 } else c) }

/-- `mark_delivery_blocked` (`db/repo.py`): flip the row to `blocked` with
the truncated error and bump the campaign's `blocked_count`. -/
def mark_delivery_blocked (db : Db) (delivery_id campaign_id : Nat) (last_error : String) : Db :=
  { db with
    deliveries := db.deliveries.map (fun d =>
      if d.id == delivery_id then
        { d with status := "blocked", sent_at := some db.now,
                 last_error := some (last_error.take 5000) }
      else d)
    campaigns := db.campaigns.map (fun c =>
      if c.id == campaign_id then { c with blocked_count := c.blocked_count + 1 } else c) }

/-- `mark_delivery_failed` (`db/repo.py`): flip the row to `failed` with the
truncated error and bump the campaign's `failed_count`. -/
def mark_delivery_failed (db : Db) (delivery_id campaign_id : Nat) (last_error : String) : Db :=
  { db with
    deliveries := db.deliveries.map (fun d =>
      if d.id == delivery_id then
        { d with status := "failed", sent_at := some db.now,
                 last_error := some (last_error.take 5000) }
      else d)
    campaigns := db.campaigns.map (fun c =>
      if c.id == campaign_id then { c with failed_count := c.failed_count + 1 } else c) }

/-- `reschedule_delivery` (`db/repo.py`): set the row's status to `pending`
(the `UPDATE` carries no status guard), push `next_attempt_at` by the delay
floored at 1 second, and record the truncated error. -/
def reschedule_delivery (db : Db) (delivery_id : Nat) (next_attempt_in_seconds : Int)
    (last_error : String) : Db :=
  let delay := max 1 next_attempt_in_seconds
  { db with deliveries := db.deliveries.map (fun d =>
      if d.id == delivery_id then
        { d with status := "pending", next_attempt_at := db.now + delay,
                 last_error := some (last_error.take 5000) }
      else d) }

/-- `NOT EXISTS (... status='pending')` subquery of
`finalize_completed_campaigns` (`db/repo.py`). -/
def has_pending_delivery (db : Db) (campaign_id : Nat) : Bool :=
  db.deliveries.any (fun d => d.campaign_id == campaign_id && d.status == "pending")

/-- `finalize_completed_campaigns` (`db/repo.py`): one statement computes the
candidate set (`sending` campaigns with no `pending` delivery), flips the
matching campaign rows to `completed`, and returns the candidate count. -/
def finalize_completed_campaigns (db : Db) : Nat × Db :=
  let candidates := db.campaigns.filter (fun c =>
    c.status == "sending" && !(has_pending_delivery db c.id))
  let campaigns := db.campaigns.map (fun c =>
    if candidates.any (fun k => k.id == c.id) then { c with status := "completed" } else c)
  (candidates.length, { db with campaigns := campaigns })

/-- `_calc_backoff_seconds` (`worker/app.py`), with the settings
`retry_base_seconds` / `retry_max_seconds` passed explicitly: exponential in
the attempt, floored at the base, capped at the max, and never below 1. -/
def calc_backoff_seconds (retry_base_seconds retry_max_seconds : Int) (attempt : Int) : Int :=
  let a := max 1 attempt
  let seconds := retry_base_seconds * 2 ^ (max 0 (a - 1)).toNat
  let seconds2 := max retry_base_seconds seconds
  let seconds3 := min retry_max_seconds seconds2
  max 1 seconds3

/-- `retry_base_seconds` default in `config.py`. -/
def default_retry_base_seconds : Int := 5

/-- `retry_max_seconds` default in `config.py`. -/
def default_retry_max_seconds : Int := 3600

/-- The per-campaign summary assembled by `_notify_completed_campaigns`
(`worker/app.py` lines 147..156) before formatting the notification text. -/
structure CompletionSummary where
  campaign_id : Nat
  total_recipients : Int
  sent_count : Int
  failed_count : Int
  blocked_count : Int
  not_delivered : Int
deriving Repr, DecidableEq

/-- Summary computation of `_notify_completed_campaigns` (`worker/app.py`):
`not_delivered = max(0, total_recipients - sent_count - failed_count -
blocked_count)`. -/
def buildCompletionSummary (campaign_id : Nat)
    (total_recipients sent_count failed_count blocked_count : Int) : CompletionSummary :=
  { campaign_id := campaign_id
    total_recipients := total_recipients
    sent_count := sent_count
    failed_count := failed_count
    blocked_count := blocked_count
    not_delivered := max 0 (total_recipients - sent_count - failed_count - blocked_count) }

/-- The credit operations in scope for the ledger claims: the free-signup
grant inside `ensure_seller`, a grant through `add_seller_credits` (payment
and admin paths), and `start_campaign_sending` whose spend debits one
credit.  Each is applied with rollback-on-error semantics. -/
inductive CreditOp where
  | ensure (tg_user_id : Nat)
  | grant (seller_id : Nat) (delta : Int) (reason : String)
      (invoice_payload tg_charge provider_charge : Option String) (campaign_id : Option Nat)
  | startCampaign (seller_tg_user_id campaign_id : Nat)
deriving Repr

/-- Apply one in-scope credit operation to the state (errors roll back). -/
def applyCreditOp (db : Db) (op : CreditOp) : Db :=
  match op with
  | .ensure tg => (ensure_seller db tg).2
  | .grant sid d r ip tc pc cid =>
      match add_seller_credits db sid d r ip tc pc cid with
      | .ok (_, db2) => db2
      | .error _ => db
  | .startCampaign tg cid => (start_campaign_sending db tg cid).2

/-- Sum of `delta` over a seller's ledger rows. -/
def txSum (txs : List CreditTx) (seller_id : Nat) : Int :=
  ((txs.filter (fun t => t.seller_id == seller_id)).map (fun t => t.delta)).sum

/-- Ledger conservation: every materialized balance equals the sum of the
seller's ledger deltas. -/
def LedgerOk (db : Db) : Prop :=
  ∀ sc ∈ db.seller_credits, sc.balance = txSum db.credit_txs sc.seller_id

/-- Structural well-formedness enforced by the schema: primary keys are
unique, the id sequence is ahead of every existing seller row, and ledger
rows never reference a seller without a `seller_credits` row (they are only
written together). -/
structure DbWF (db : Db) : Prop where
  credits_nodup : (db.seller_credits.map (fun sc => sc.seller_id)).Nodup
  sellers_id_nodup : (db.sellers.map (fun s => s.id)).Nodup
  sellers_tg_nodup : (db.sellers.map (fun s => s.tg_user_id)).Nodup
  seller_id_lt : ∀ s ∈ db.sellers, s.id < db.next_seller_id
  credit_seller_lt : ∀ sc ∈ db.seller_credits, sc.seller_id < db.next_seller_id
  tx_has_credit_row : ∀ tx ∈ db.credit_txs,
    ∃ sc ∈ db.seller_credits, sc.seller_id = tx.seller_id

/-- All balances non-negative. -/
def NonNegBalances (db : Db) : Prop :=
  ∀ sc ∈ db.seller_credits, 0 ≤ sc.balance

/-- The in-scope callers only ever grant positive amounts: the payment
handler passes `qty ∈ {1, 3, 10}` and both admin paths guard `delta > 0`. -/
def GrantsPositive : CreditOp → Prop
  | .grant _ d _ _ _ _ _ => 0 < d
  | _ => True

/-- The queue operations of claim C10 that never move a row to `pending`
(reschedule is treated separately: its `UPDATE` has no status guard). -/
inductive QueueOp where
  | lease (batch_size lease_seconds : Int)
  | markSent (delivery_id campaign_id tg_message_id : Nat)
  | markBlocked (delivery_id campaign_id : Nat) (last_error : String)
  | markFailed (delivery_id campaign_id : Nat) (last_error : String)
deriving Repr

/-- Apply one queue operation to the state. -/
def applyQueueOp (db : Db) (op : QueueOp) : Db :=
  match op with
  | .lease b ls => (lease_due_deliveries db b ls).2
  | .markSent d c m => mark_delivery_sent db d c m
  | .markBlocked d c e => mark_delivery_blocked db d c e
  | .markFailed d c e => mark_delivery_failed db d c e

/-- Terminal delivery statuses. -/
def terminalStatus (s : String) : Prop :=
  s = "sent" ∨ s = "blocked" ∨ s = "failed"

/-- Concrete state: seller 1 (Telegram id 100) holding 3 credits backed by
its `free_signup` ledger row, shop 1 "Acme" with two subscribed customers,
and campaign 10 in status `paid`. -/
def dbPaid : Db :=
  { now := 1000
    next_seller_id := 2
    next_delivery_id := 1
    sellers := [{ id := 1, tg_user_id := 100 }]
    seller_credits := [{ seller_id := 1, balance := 3 }]
    credit_txs := [{ seller_id := 1, delta := 3, reason := "free_signup",
                     campaign_id := none, tg_payment_charge_id := none,
                     provider_payment_charge_id := none, invoice_payload := none,
                     balance_after := 3 }]
    customers := [{ id := 1, tg_user_id := 500 }, { id := 2, tg_user_id := 501 }]
    shops := [{ id := 1, seller_id := 1, name := "Acme" }]
    shop_customers := [{ shop_id := 1, customer_id := 1, status := "subscribed" },
                       { shop_id := 1, customer_id := 2, status := "subscribed" }]
    campaigns := [{ id := 10, shop_id := 1, status := "paid", text := "hello",
                    button_title := "Open", url := "https://x", photo_file_id := none,
                    total_recipients := 0, sent_count := 0, failed_count := 0,
                    blocked_count := 0 }]
    deliveries := [] }

/-- `dbPaid` with the seller's balance exhausted (0 credits, ledger 3 - 3). -/
def dbNoCredits : Db :=
  { dbPaid with
    seller_credits := [{ seller_id := 1, balance := 0 }]
    credit_txs := dbPaid.credit_txs ++
      [{ seller_id := 1, delta := -3, reason := "admin_grant", campaign_id := none,
         tg_payment_charge_id := none, provider_payment_charge_id := none,
         invoice_payload := none, balance_after := 0 }] }

/-- `dbPaid` with campaign 10 still in status `draft`. -/
def dbDraft : Db :=
  { dbPaid with
    campaigns := [{ id := 10, shop_id := 1, status := "draft", text := "hello",
                    button_title := "Open", url := "https://x", photo_file_id := none,
                    total_recipients := 0, sent_count := 0, failed_count := 0,
                    blocked_count := 0 }] }

/-- `dbPaid` with campaign 10 already `sending` and two due `pending`
deliveries (ids 1 and 2, due at 900 and 950, now = 1000). -/
def dbSending : Db :=
  { dbPaid with
    next_delivery_id := 3
    campaigns := [{ id := 10, shop_id := 1, status := "sending", text := "hello",
                    button_title := "Open", url := "https://x", photo_file_id := none,
                    total_recipients := 2, sent_count := 0, failed_count := 0,
                    blocked_count := 0 }]
    deliveries := [{ id := 1, campaign_id := 10, customer_id := 1, status := "pending",
                     attempt_count := 0, next_attempt_at := 900, sent_at := none,
                     last_error := none, tg_message_id := none },
                   { id := 2, campaign_id := 10, customer_id := 2, status := "pending",
                     attempt_count := 0, next_attempt_at := 950, sent_at := none,
                     last_error := none, tg_message_id := none }] }

/-- `dbSending` with delivery 1 already terminal (`sent`). -/
def dbSentRow : Db :=
  { dbSending with
    deliveries := [{ id := 1, campaign_id := 10, customer_id := 1, status := "sent",
                     attempt_count := 1, next_attempt_at := 900, sent_at := some 950,
                     last_error := none, tg_message_id := some 77 }] }

/-- A `sending` campaign (id 10, shop 7) with no deliveries left. -/
def dbFinA : Db :=
  { dbPaid with
    campaigns := [{ id := 10, shop_id := 7, status := "sending", text := "a",
                    button_title := "", url := "", photo_file_id := none,
                    total_recipients := 0, sent_count := 0, failed_count := 0,
                    blocked_count := 0 }] }

/-- A different `sending` campaign (id 30, shop 9) with no deliveries left. -/
def dbFinB : Db :=
  { dbPaid with
    campaigns := [{ id := 30, shop_id := 9, status := "sending", text := "b",
                    button_title := "", url := "", photo_file_id := none,
                    total_recipients := 0, sent_count := 0, failed_count := 0,
                    blocked_count := 0 }] }

/-- The campaigns affected by `finalize_completed_campaigns` — the candidate
set of its CTE — with their shop ids, used to state what the function's
return value does (and does not) carry. -/
def affectedCampaigns (db : Db) : List (Nat × Nat) :=
  (db.campaigns.filter (fun c =>
    c.status == "sending" && !(has_pending_delivery db c.id))).map (fun c => (c.id, c.shop_id))

/-! ### Helper lemmas -/

theorem two_pow_one_le (n : Nat) : (1 : Int) ≤ 2 ^ n := by
  have h := pow_pos (show (0 : Int) < 2 by norm_num) n
  omega

theorem base_le_base_mul_two_pow (base : Int) (hbase : 0 ≤ base) (n : Nat) :
    base ≤ base * 2 ^ n := by
  have h := two_pow_one_le n
  nlinarith

/-! ### C6 -/

/-- C6: for every `attempt ≥ 1` (with a positive configured base not above
the configured max, as in the defaults 5 and 3600) the worker backoff equals
`clamp(base * 2^(attempt-1), base, max)`; it is monotone non-decreasing in
the attempt, `backoff(1) ≥ base`, and `backoff(attempt) ≤ max` for every
attempt. -/
theorem backoff_clamp_monotone (base maxs attempt : Int)
    (hbase : 1 ≤ base) (hbm : base ≤ maxs) (hatt : 1 ≤ attempt) :
    calc_backoff_seconds base maxs attempt
        = min maxs (max base (base * 2 ^ (attempt - 1).toNat)) ∧
    (∀ a2 : Int, attempt ≤ a2 →
      calc_backoff_seconds base maxs attempt ≤ calc_backoff_seconds base maxs a2) ∧
    base ≤ calc_backoff_seconds base maxs 1 ∧
    (∀ a : Int, calc_backoff_seconds base maxs a ≤ maxs) := by
  have hmax1 : 1 ≤ maxs := le_trans hbase hbm
  have key : ∀ a : Int, calc_backoff_seconds base maxs a
      = min maxs (max base (base * 2 ^ (max 0 (max 1 a - 1)).toNat)) := by
    intro a
    simp only [calc_backoff_seconds]
    have hb : base ≤ base * 2 ^ (max 0 (max 1 a - 1)).toNat :=
      base_le_base_mul_two_pow base (by omega) _
    have h1 : (1 : Int) ≤ max base (base * 2 ^ (max 0 (max 1 a - 1)).toNat) :=
      le_trans hbase (le_max_left _ _)
    have h2 : (1 : Int) ≤ min maxs (max base (base * 2 ^ (max 0 (max 1 a - 1)).toNat)) :=
      le_min hmax1 h1
    omega
  have hmono : ∀ a1 a2 : Int, a1 ≤ a2 →
      calc_backoff_seconds base maxs a1 ≤ calc_backoff_seconds base maxs a2 := by
    intro a1 a2 h12
    rw [key a1, key a2]
    have hn : (max 0 (max 1 a1 - 1)).toNat ≤ (max 0 (max 1 a2 - 1)).toNat := by omega
    have hp : (2 : Int) ^ (max 0 (max 1 a1 - 1)).toNat ≤ 2 ^ (max 0 (max 1 a2 - 1)).toNat :=
      pow_le_pow_right₀ (by norm_num) hn
    have hm : base * 2 ^ (max 0 (max 1 a1 - 1)).toNat
        ≤ base * 2 ^ (max 0 (max 1 a2 - 1)).toNat :=
      mul_le_mul_of_nonneg_left hp (by omega)
    exact min_le_min le_rfl (max_le_max le_rfl hm)
  refine ⟨?_, fun a2 h => hmono attempt a2 h, ?_, ?_⟩
  · rw [key attempt]
    have h1 : max 1 attempt = attempt := by omega
    have h2 : (max 0 (attempt - 1)).toNat = (attempt - 1).toNat := by omega
    rw [h1, h2]
  · rw [key 1]
    have : base * 2 ^ (max 0 (max 1 (1 : Int) - 1)).toNat = base := by norm_num
    rw [this]
    omega
  · intro a
    rw [key a]
    omega

/-- C6 witness: at the configured defaults (base 5, max 3600) and attempt 3,
the hypotheses hold and the backoff equals the clamp, here 20 seconds. -/
theorem backoff_clamp_monotone_witness :
    calc_backoff_seconds default_retry_base_seconds default_retry_max_seconds 3
        = min default_retry_max_seconds
            (max default_retry_base_seconds
              (default_retry_base_seconds * 2 ^ ((3 : Int) - 1).toNat)) :=
  (backoff_clamp_monotone default_retry_base_seconds default_retry_max_seconds 3
    (by norm_num [default_retry_base_seconds])
    (by norm_num [default_retry_base_seconds, default_retry_max_seconds])
    (by norm_num)).1

/-! ### C9 -/

/-- C9 counterexample: for a completed campaign with 100 recipients, 90
sent, 5 failed, 5 blocked, the notification computes `not_delivered = 0`,
not `total_recipients - sent_count = 10` as the claim states. -/
theorem notify_not_delivered_cex :
    (buildCompletionSummary 1 100 90 5 5).not_delivered = 0 ∧
    (100 : Int) - 90 = 10 ∧
    (buildCompletionSummary 1 100 90 5 5).not_delivered ≠ 100 - 90 := by
  refine ⟨by decide, by decide, by decide⟩

/-- C9 (amended): the completion notification reports
`not_delivered = max 0 (total - sent - failed - blocked)`; when the terminal
counts do not exceed the recipient total this is `total - (sent + failed +
blocked)`, so the four reported outcome counts sum to the total. -/
theorem notify_not_delivered_amended (campaign_id : Nat)
    (total sent failed blocked : Int) (h : sent + failed + blocked ≤ total) :
    (buildCompletionSummary campaign_id total sent failed blocked).not_delivered
        = total - (sent + failed + blocked) ∧
    sent + failed + blocked
        + (buildCompletionSummary campaign_id total sent failed blocked).not_delivered
        = total := by
  unfold buildCompletionSummary
  constructor <;> simp <;> omega

/-- C9 amended witness: the spec's own scenario (100 recipients, 90 sent,
5 failed, 5 blocked) satisfies the hypothesis and reports `not_delivered
= 0`. -/
theorem notify_not_delivered_amended_witness :
    (buildCompletionSummary 1 100 90 5 5).not_delivered = 100 - (90 + 5 + 5) :=
  (notify_not_delivered_amended 1 100 90 5 5 (by norm_num)).1

/-! ### C10 -/

/-- C10 counterexample: delivery 1 is terminal (`sent`), yet
`reschedule_delivery` — an in-scope queue operation — sets its status back to
`pending` (its `UPDATE` has no status guard). -/
theorem reschedule_regresses_terminal_cex :
    dbSentRow.deliveries.map (fun d => d.status) = ["sent"] ∧
    (reschedule_delivery dbSentRow 1 30 "err").deliveries.map (fun d => d.status)
        = ["pending"] := by
  exact ⟨rfl, rfl⟩

theorem queue_op_deliveries_as_map (db : Db) (op : QueueOp) :
    ∃ f : Delivery → Delivery,
      (applyQueueOp db op).deliveries = db.deliveries.map f ∧
      ∀ d : Delivery, d.status ≠ "pending" → (f d).status ≠ "pending" := by
  cases op with
  | lease b ls =>
      by_cases hb : b ≤ 0
      · refine ⟨id, ?_, fun d h => h⟩
        simp [applyQueueOp, lease_due_deliveries, hb]
      · refine ⟨fun d =>
          if ((leaseSelection db b).map (fun r => r.1.id)).contains d.id then
            { d with attempt_count := d.attempt_count + 1,
                     next_attempt_at := db.now + ls }
          else d, ?_, ?_⟩
        · simp [applyQueueOp, lease_due_deliveries, hb]
        · intro d h
          dsimp only
          split
          · exact h
          · exact h
  | markSent dl c m =>
      refine ⟨fun d =>
        if d.id == dl then
          { d with status := "sent", sent_at := some db.now,
                   tg_message_id := some m, last_error := none }
        else d, rfl, ?_⟩
      intro d h
      dsimp only
      split
      · exact (by decide : ("sent" : String) ≠ "pending")
      · exact h
  | markBlocked dl c e =>
      refine ⟨fun d =>
        if d.id == dl then
          { d with status := "blocked", sent_at := some db.now,
                   last_error := some (e.take 5000) }
        else d, rfl, ?_⟩
      intro d h
      dsimp only
      split
      · exact (by decide : ("blocked" : String) ≠ "pending")
      · exact h
  | markFailed dl c e =>
      refine ⟨fun d =>
        if d.id == dl then
          { d with status := "failed", sent_at := some db.now,
                   last_error := some (e.take 5000) }
        else d, rfl, ?_⟩
      intro d h
      dsimp only
      split
      · exact (by decide : ("failed" : String) ≠ "pending")
      · exact h

/-- C10 (amended): the queue operations lease, mark-sent, mark-blocked and
mark-failed never set a terminal (`sent`/`blocked`/`failed`) delivery row
back to `pending`; `reschedule_delivery`, however, sets its target row to
`pending` unconditionally (in the worker it is only invoked on rows that
were just leased while `pending`). -/
theorem queue_ops_no_regression (db : Db) (op : QueueOp) :
    (applyQueueOp db op).deliveries.length = db.deliveries.length ∧
    ∀ i (hi : i < db.deliveries.length)
      (hj : i < (applyQueueOp db op).deliveries.length),
      terminalStatus (db.deliveries.get ⟨i, hi⟩).status →
      ((applyQueueOp db op).deliveries.get ⟨i, hj⟩).status ≠ "pending" := by
  have hterm : ∀ s : String, terminalStatus s → s ≠ "pending" := by
    rintro s (rfl | rfl | rfl) <;> decide
  obtain ⟨f, heq, hf⟩ := queue_op_deliveries_as_map db op
  constructor
  · rw [heq, List.length_map]
  · intro i hi hj h
    have hsome : (applyQueueOp db op).deliveries[i]?
        = some (f (db.deliveries.get ⟨i, hi⟩)) := by
      rw [heq, List.getElem?_map, List.get_eq_getElem, List.getElem?_eq_getElem hi]
      rfl
    have hval : (applyQueueOp db op).deliveries.get ⟨i, hj⟩
        = f (db.deliveries.get ⟨i, hi⟩) := by
      rw [List.getElem?_eq_getElem hj] at hsome
      rw [List.get_eq_getElem]
      exact Option.some.inj hsome
    rw [hval]
    exact hf _ (hterm _ h)

/-- C10 amended witness: marking a delivery sent in the concrete state with
a terminal row leaves that row off `pending`. -/
theorem queue_ops_no_regression_witness :
    terminalStatus (dbSentRow.deliveries.get ⟨0, by decide⟩).status ∧
    ((applyQueueOp dbSentRow (QueueOp.markSent 1 10 5)).deliveries.get
        ⟨0, by decide⟩).status ≠ "pending" := by
  refine ⟨Or.inl rfl, ?_⟩
  exact (queue_ops_no_regression dbSentRow (QueueOp.markSent 1 10 5)).2 0
    (by decide) (by decide) (Or.inl rfl)

/-! ### C7 -/

/-- C7 counterexample: campaign 10 is in status `draft` (not `paid`), yet
Start succeeds: it returns 2 recipients, spends a credit (balance 3 to 2)
and enqueues deliveries — the claim that Start rejects every status other
than exactly `paid` is false on the code. -/
theorem start_accepts_draft_cex :
    dbDraft.campaigns.map (fun c => c.status) = ["draft"] ∧
    (start_campaign_sending dbDraft 100 10).1 = Except.ok 2 ∧
    (start_campaign_sending dbDraft 100 10).2.seller_credits
        = [{ seller_id := 1, balance := 2 }] ∧
    ((start_campaign_sending dbDraft 100 10).2.deliveries.filter
        (fun d => d.campaign_id == 10)).length = 2 := by
  exact ⟨rfl, rfl, rfl, rfl⟩

theorem spend_one_credit_eq_none (credits : List SellerCredit) (sid : Nat)
    (h : ∀ sc ∈ credits, sc.seller_id = sid → sc.balance < 1) :
    spend_one_credit credits sid = none := by
  unfold spend_one_credit
  have : credits.find? (fun sc => sc.seller_id == sid && decide (0 < sc.balance)) = none := by
    rw [List.find?_eq_none]
    intro sc hsc
    simp only [Bool.and_eq_true, beq_iff_eq, decide_eq_true_eq, not_and]
    intro heq
    have := h sc hsc heq
    omega
  rw [this]

/-- C7 (amended): Start fails `campaign_already_started` when the status is
`sending`, `completed` or `sent`, fails `campaign_invalid_status` when it is
`canceled` or `cancelled`, and accepts every other status — including
`draft` — proceeding to the credit spend (succeeding, or failing only with
`no_credits`). -/
theorem start_status_gate (db : Db) (tg cid : Nat) (camp : Campaign) (sid : Nat)
    (hfind : findCampaignForSeller db tg cid = some (camp, sid)) :
    (camp.status = "sending" ∨ camp.status = "completed" ∨ camp.status = "sent" →
      start_campaign_sending db tg cid = (.error "campaign_already_started", db)) ∧
    (camp.status = "canceled" ∨ camp.status = "cancelled" →
      start_campaign_sending db tg cid = (.error "campaign_invalid_status", db)) ∧
    (camp.status ∉ (["sending", "completed", "sent", "canceled", "cancelled"] : List String) →
      start_campaign_sending db tg cid = (.error "no_credits", db) ∨
      ∃ n, (start_campaign_sending db tg cid).1 = .ok n) := by
  refine ⟨?_, ?_, ?_⟩
  · intro hs
    have h1 : (camp.status == "sending" || camp.status == "completed"
        || camp.status == "sent") = true := by
      rcases hs with h | h | h <;> rw [h] <;> decide
    simp only [start_campaign_sending, hfind, h1, if_true]
  · intro hs
    have h1 : (camp.status == "sending" || camp.status == "completed"
        || camp.status == "sent") = false := by
      rcases hs with h | h <;> rw [h] <;> decide
    have h2 : (camp.status == "canceled" || camp.status == "cancelled") = true := by
      rcases hs with h | h <;> rw [h] <;> decide
    simp only [start_campaign_sending, hfind, h1, h2, Bool.false_eq_true,
      if_false, if_true]
  · intro hs
    simp only [List.mem_cons, List.not_mem_nil, or_false, not_or] at hs
    obtain ⟨n1, n2, n3, n4, n5⟩ := hs
    have h1 : (camp.status == "sending" || camp.status == "completed"
        || camp.status == "sent") = false := by
      rw [Bool.or_eq_false_iff, Bool.or_eq_false_iff]
      exact ⟨⟨beq_eq_false_iff_ne.mpr n1, beq_eq_false_iff_ne.mpr n2⟩,
        beq_eq_false_iff_ne.mpr n3⟩
    have h2 : (camp.status == "canceled" || camp.status == "cancelled") = false := by
      rw [Bool.or_eq_false_iff]
      exact ⟨beq_eq_false_iff_ne.mpr n4, beq_eq_false_iff_ne.mpr n5⟩
    cases hsp : spend_one_credit db.seller_credits sid with
    | none =>
        left
        simp only [start_campaign_sending, hfind, h1, h2, Bool.false_eq_true,
          if_false, hsp]
    | some pr =>
        right
        obtain ⟨nb, credits⟩ := pr
        simp only [start_campaign_sending, hfind, h1, h2, Bool.false_eq_true,
          if_false, hsp]
        exact ⟨_, rfl⟩

/-- C7 amended witness: at the concrete `draft` campaign the gate hypotheses
hold and Start proceeds past the status checks (here succeeding). -/
theorem start_status_gate_witness :
    start_campaign_sending dbDraft 100 10 = (.error "no_credits", dbDraft) ∨
    ∃ n, (start_campaign_sending dbDraft 100 10).1 = .ok n :=
  (start_status_gate dbDraft 100 10
      { id := 10, shop_id := 1, status := "draft", text := "hello",
        button_title := "Open", url := "https://x", photo_file_id := none,
        total_recipients := 0, sent_count := 0, failed_count := 0,
        blocked_count := 0 } 1 rfl).2.2 (by decide)

/-! ### C1 -/

/-- C1: when the caller owns the campaign, its status is `paid` (so the
status guards pass), and the seller's balance is below 1, Start fails with
`no_credits` and has no effect: the state is returned unchanged, so the
campaign is still `paid`, the balance rows and the ledger are untouched, and
the campaign still has zero delivery rows. -/
theorem start_no_credits_no_effect (db : Db) (tg cid : Nat) (camp : Campaign) (sid : Nat)
    (hfind : findCampaignForSeller db tg cid = some (camp, sid))
    (hstatus : camp.status = "paid")
    (hbal : ∀ sc ∈ db.seller_credits, sc.seller_id = sid → sc.balance < 1)
    (hnod : (db.deliveries.filter (fun d => d.campaign_id == cid)).length = 0) :
    start_campaign_sending db tg cid = (.error "no_credits", db) ∧
    camp.status = "paid" ∧
    ((start_campaign_sending db tg cid).2.deliveries.filter
        (fun d => d.campaign_id == cid)).length = 0 ∧
    (start_campaign_sending db tg cid).2.seller_credits = db.seller_credits ∧
    (start_campaign_sending db tg cid).2.credit_txs = db.credit_txs ∧
    (start_campaign_sending db tg cid).2.campaigns = db.campaigns := by
  have h1 : (camp.status == "sending" || camp.status == "completed"
      || camp.status == "sent") = false := by rw [hstatus]; decide
  have h2 : (camp.status == "canceled" || camp.status == "cancelled") = false := by
    rw [hstatus]; decide
  have hsp : spend_one_credit db.seller_credits sid = none :=
    spend_one_credit_eq_none db.seller_credits sid hbal
  have hmain : start_campaign_sending db tg cid = (.error "no_credits", db) := by
    simp only [start_campaign_sending, hfind, h1, h2, Bool.false_eq_true,
      if_false, hsp]
  exact ⟨hmain, hstatus, by rw [hmain]; exact hnod, by rw [hmain], by rw [hmain],
    by rw [hmain]⟩

/-- C1 witness: the concrete state with a `paid` campaign and balance 0
satisfies every hypothesis, and Start fails with `no_credits` leaving the
state unchanged. -/
theorem start_no_credits_no_effect_witness :
    start_campaign_sending dbNoCredits 100 10 = (.error "no_credits", dbNoCredits) :=
  (start_no_credits_no_effect dbNoCredits 100 10
      { id := 10, shop_id := 1, status := "paid", text := "hello",
        button_title := "Open", url := "https://x", photo_file_id := none,
        total_recipients := 0, sent_count := 0, failed_count := 0,
        blocked_count := 0 } 1 rfl rfl (by decide) (by decide)).1

/-! ### C8 -/

/-- C8 counterexample: two states whose finalize sweeps affect different
campaigns (campaign 10 of shop 7 versus campaign 30 of shop 9) yield the
very same return value — the function returns only the affected row count,
not the affected campaign ids and shop ids the claim states. -/
theorem finalize_returns_count_cex :
    (finalize_completed_campaigns dbFinA).1 = (finalize_completed_campaigns dbFinB).1 ∧
    affectedCampaigns dbFinA = [(10, 7)] ∧
    affectedCampaigns dbFinB = [(30, 9)] ∧
    affectedCampaigns dbFinA ≠ affectedCampaigns dbFinB := by
  exact ⟨rfl, rfl, rfl, by decide⟩

/-- C8 (amended): `finalize_completed_campaigns` flips, in one statement,
exactly the `sending` campaigns without remaining `pending` deliveries to
`completed`, leaves every other campaign row and all other tables unchanged,
and returns the number of affected campaigns (not their ids/shop ids). -/
theorem finalize_completed_spec (db : Db)
    (hnodup : (db.campaigns.map (fun c => c.id)).Nodup) :
    (finalize_completed_campaigns db).1 = (affectedCampaigns db).length ∧
    (finalize_completed_campaigns db).2.campaigns.length = db.campaigns.length ∧
    (∀ i (hi : i < db.campaigns.length)
        (hj : i < (finalize_completed_campaigns db).2.campaigns.length),
      (((db.campaigns.get ⟨i, hi⟩).status = "sending" ∧
          has_pending_delivery db (db.campaigns.get ⟨i, hi⟩).id = false) →
        (finalize_completed_campaigns db).2.campaigns.get ⟨i, hj⟩
          = { db.campaigns.get ⟨i, hi⟩ with status := "completed" }) ∧
      (¬((db.campaigns.get ⟨i, hi⟩).status = "sending" ∧
          has_pending_delivery db (db.campaigns.get ⟨i, hi⟩).id = false) →
        (finalize_completed_campaigns db).2.campaigns.get ⟨i, hj⟩
          = db.campaigns.get ⟨i, hi⟩)) ∧
    (finalize_completed_campaigns db).2.deliveries = db.deliveries ∧
    (finalize_completed_campaigns db).2.seller_credits = db.seller_credits ∧
    (finalize_completed_campaigns db).2.credit_txs = db.credit_txs := by
  refine ⟨?_, ?_, ?_, rfl, rfl, rfl⟩
  · simp only [finalize_completed_campaigns, affectedCampaigns, List.length_map]
  · simp only [finalize_completed_campaigns, List.length_map]
  · intro i hi hj
    have hmem : db.campaigns.get ⟨i, hi⟩ ∈ db.campaigns := List.get_mem _ _ _
    have hget : (finalize_completed_campaigns db).2.campaigns.get ⟨i, hj⟩
        = (if (db.campaigns.filter (fun c =>
              c.status == "sending" && !(has_pending_delivery db c.id))).any
                (fun k => k.id == (db.campaigns.get ⟨i, hi⟩).id) then
            { db.campaigns.get ⟨i, hi⟩ with status := "completed" }
          else db.campaigns.get ⟨i, hi⟩) := by
      simp only [finalize_completed_campaigns, List.get_eq_getElem, List.getElem_map]
    constructor
    · rintro ⟨hs, hp⟩
      rw [hget, if_pos]
      rw [List.any_eq_true]
      refine ⟨db.campaigns.get ⟨i, hi⟩, ?_, by simp⟩
      rw [List.mem_filter]
      exact ⟨hmem, by rw [hs, hp]; decide⟩
    · intro hns
      rw [hget, if_neg]
      rw [List.any_eq_true]
      rintro ⟨k, hk, hkid⟩
      rw [List.mem_filter] at hk
      obtain ⟨hkmem, hkpred⟩ := hk
      have hkeq : k = db.campaigns.get ⟨i, hi⟩ :=
        List.inj_on_of_nodup_map hnodup hkmem hmem (by simpa using hkid)
      rw [hkeq] at hkpred
      simp only [Bool.and_eq_true, beq_iff_eq, Bool.not_eq_true'] at hkpred
      exact hns hkpred

/-- C8 amended witness: on the concrete state with one finished `sending`
campaign, finalize returns the count 1 = number of affected campaigns. -/
theorem finalize_completed_spec_witness :
    (finalize_completed_campaigns dbFinA).1 = (affectedCampaigns dbFinA).length :=
  (finalize_completed_spec dbFinA (by decide)).1

/-! ### C4 -/

theorem mem_eligible_iff (db : Db) (d : Delivery) (c : Campaign) (cu : Customer) :
    (d, c, cu) ∈ eligible_deliveries db ↔
      d ∈ db.deliveries ∧ d.status = "pending" ∧ d.next_attempt_at ≤ db.now ∧
      db.campaigns.find? (fun k => k.id == d.campaign_id) = some c ∧
      c.status = "sending" ∧
      db.customers.find? (fun k => k.id == d.customer_id) = some cu := by
  unfold eligible_deliveries
  rw [List.mem_filterMap]
  constructor
  · rintro ⟨d0, hd0, hf⟩
    by_cases h1 : (d0.status == "pending" && decide (d0.next_attempt_at ≤ db.now)) = true
    · rw [if_pos h1] at hf
      cases hcf : db.campaigns.find? (fun k => k.id == d0.campaign_id) with
      | none => rw [hcf] at hf; cases hf
      | some c0 =>
          rw [hcf] at hf
          dsimp only at hf
          by_cases h2 : (c0.status == "sending") = true
          · rw [if_pos h2] at hf
            cases hcu : db.customers.find? (fun k => k.id == d0.customer_id) with
            | none => rw [hcu] at hf; cases hf
            | some cu0 =>
                rw [hcu] at hf
                dsimp only at hf
                have heq := Option.some.inj hf
                rw [Prod.ext_iff] at heq
                obtain ⟨hd, hrest⟩ := heq
                rw [Prod.ext_iff] at hrest
                obtain ⟨hc, hcu2⟩ := hrest
                dsimp only at hd hc hcu2
                subst hd; subst hc; subst hcu2
                simp only [Bool.and_eq_true, beq_iff_eq, decide_eq_true_eq] at h1 h2
                exact ⟨hd0, h1.1, h1.2, hcf, h2, hcu⟩
          · rw [if_neg h2] at hf; cases hf
    · rw [if_neg h1] at hf; cases hf
  · rintro ⟨hd, hs, hn, hcf, hcs, hcuf⟩
    refine ⟨d, hd, ?_⟩
    have h1 : (d.status == "pending" && decide (d.next_attempt_at ≤ db.now)) = true := by
      simp [hs, hn]
    have h2 : (c.status == "sending") = true := by simp [hcs]
    rw [if_pos h1, hcf]
    dsimp only
    rw [if_pos h2, hcuf]

/-- C4 counterexample: the shop of the leased campaign is named "Acme", yet
the job record returned by the lease carries no shop name (the worker later
reads the absent key as an empty name) — the claim that each job carries the
shop name is false on the code. -/
theorem lease_shop_name_cex :
    dbSending.shops.map (fun s => s.name) = ["Acme"] ∧
    (lease_due_deliveries dbSending 1 300).1.length = 1 ∧
    (lease_due_deliveries dbSending 1 300).1.map (fun j => j.shop_name) = [none] ∧
    (lease_due_deliveries dbSending 1 300).1.map (fun j => j.shop_name)
        ≠ [some "Acme"] := by
  exact ⟨rfl, rfl, rfl, by decide⟩

/-- C4 (amended): for every state and `batch_size > 0`, the lease selects at
most `batch_size` rows, all of them `pending`, due (`next_attempt_at ≤
now`), with parent campaign `sending`; the selection is sorted ascending by
`(next_attempt_at, id)` and is a front segment (an eligible row is skipped
only when the batch is full and every selected row sorts no later);
in the same transaction the selected rows get `attempt_count + 1` and
`next_attempt_at = now + lease_seconds`, all other rows are untouched; each
returned job carries the post-increment attempt count, the recipient chat
id, and the campaign's text, button title, url and photo — but no shop name
(the job's shop-name field is absent/none). -/
theorem lease_due_spec (db : Db) (batch_size lease_seconds : Int)
    (hb : 0 < batch_size) :
    (lease_due_deliveries db batch_size lease_seconds).1
        = (leaseSelection db batch_size).map mkDeliveryJob ∧
    (leaseSelection db batch_size).length ≤ batch_size.toNat ∧
    (∀ r ∈ leaseSelection db batch_size,
      r.1 ∈ db.deliveries ∧ r.1.status = "pending" ∧
      r.1.next_attempt_at ≤ db.now ∧
      db.campaigns.find? (fun k => k.id == r.1.campaign_id) = some r.2.1 ∧
      r.2.1.status = "sending" ∧
      db.customers.find? (fun k => k.id == r.1.customer_id) = some r.2.2) ∧
    List.Pairwise leaseLE (leaseSelection db batch_size) ∧
    (∀ e ∈ eligible_deliveries db, e ∉ leaseSelection db batch_size →
      (leaseSelection db batch_size).length = batch_size.toNat ∧
      ∀ s ∈ leaseSelection db batch_size, leaseLE s e) ∧
    (∀ r ∈ leaseSelection db batch_size,
      (mkDeliveryJob r).delivery_id = r.1.id ∧
      (mkDeliveryJob r).attempt = r.1.attempt_count + 1 ∧
      (mkDeliveryJob r).tg_user_id = r.2.2.tg_user_id ∧
      (mkDeliveryJob r).text = r.2.1.text ∧
      (mkDeliveryJob r).button_title = r.2.1.button_title ∧
      (mkDeliveryJob r).url = r.2.1.url ∧
      (mkDeliveryJob r).shop_name = none) ∧
    (lease_due_deliveries db batch_size lease_seconds).2.deliveries
        = db.deliveries.map (fun d =>
            if ((leaseSelection db batch_size).map (fun r => r.1.id)).contains d.id then
              { d with attempt_count := d.attempt_count + 1,
                       next_attempt_at := db.now + lease_seconds }
            else d) := by
  have hnle : ¬batch_size ≤ 0 := not_le.mpr hb
  have hsorted : List.Pairwise leaseLE
      (List.insertionSort leaseLE (eligible_deliveries db)) :=
    List.sorted_insertionSort leaseLE (eligible_deliveries db)
  refine ⟨?_, ?_, ?_, ?_, ?_, ?_, ?_⟩
  · simp only [lease_due_deliveries, if_neg hnle]
  · simp only [leaseSelection, List.length_take]
    exact min_le_left _ _
  · intro r hr
    have h1 : r ∈ List.insertionSort leaseLE (eligible_deliveries db) :=
      List.take_subset _ _ hr
    have h2 : r ∈ eligible_deliveries db :=
      (List.perm_insertionSort leaseLE (eligible_deliveries db)).mem_iff.mp h1
    obtain ⟨d, c, cu⟩ := r
    exact (mem_eligible_iff db d c cu).mp h2
  · exact hsorted.sublist (List.take_sublist _ _)
  · intro e he hnotin
    have heS : e ∈ List.insertionSort leaseLE (eligible_deliveries db) :=
      (List.perm_insertionSort leaseLE (eligible_deliveries db)).mem_iff.mpr he
    have hsplit := List.take_append_drop batch_size.toNat
      (List.insertionSort leaseLE (eligible_deliveries db))
    have hdrop : e ∈ (List.insertionSort leaseLE (eligible_deliveries db)).drop
        batch_size.toNat := by
      rcases (List.mem_append.mp (by rw [hsplit]; exact heS)) with h | h
      · exact absurd h hnotin
      · exact h
    have hlen : batch_size.toNat
        < (List.insertionSort leaseLE (eligible_deliveries db)).length := by
      by_contra hcon
      push_neg at hcon
      rw [List.drop_eq_nil_of_le hcon] at hdrop
      cases hdrop
    constructor
    · simp only [leaseSelection, List.length_take]
      omega
    · intro s hs
      have hpw : List.Pairwise leaseLE
          ((List.insertionSort leaseLE (eligible_deliveries db)).take batch_size.toNat ++
            (List.insertionSort leaseLE (eligible_deliveries db)).drop batch_size.toNat) := by
        rw [hsplit]; exact hsorted
      exact (List.pairwise_append.mp hpw).2.2 s hs e hdrop
  · intro r hr
    exact ⟨rfl, rfl, rfl, rfl, rfl, rfl, rfl⟩
  · simp only [lease_due_deliveries, if_neg hnle]

/-- C4 amended witness: at the concrete `sending` state with two due rows
and batch size 1, the lease returns the selection mapped to job records. -/
theorem lease_due_spec_witness :
    (lease_due_deliveries dbSending 1 300).1
        = (leaseSelection dbSending 1).map mkDeliveryJob :=
  (lease_due_spec dbSending 1 300 (by norm_num)).1

/-! ### C2 / C5 : ledger machinery -/

theorem txSum_append_single (txs : List CreditTx) (t : CreditTx) (sid : Nat) :
    txSum (txs ++ [t]) sid
        = txSum txs sid + (if t.seller_id = sid then t.delta else 0) := by
  unfold txSum
  rw [List.filter_append]
  by_cases h : t.seller_id = sid
  · simp [h]
  · simp [h]

theorem txSum_eq_zero (txs : List CreditTx) (sid : Nat)
    (h : ∀ t ∈ txs, t.seller_id ≠ sid) : txSum txs sid = 0 := by
  unfold txSum
  have : txs.filter (fun t => t.seller_id == sid) = [] := by
    rw [List.filter_eq_nil_iff]
    intro t ht
    simpa using h t ht
  rw [this]
  rfl

theorem enqueue_step_fields (campaign_id shop_id : Nat) (acc : Db) (sc : ShopCustomer) :
    (enqueue_step campaign_id shop_id acc sc).sellers = acc.sellers ∧
    (enqueue_step campaign_id shop_id acc sc).seller_credits = acc.seller_credits ∧
    (enqueue_step campaign_id shop_id acc sc).credit_txs = acc.credit_txs ∧
    (enqueue_step campaign_id shop_id acc sc).campaigns = acc.campaigns ∧
    (enqueue_step campaign_id shop_id acc sc).next_seller_id = acc.next_seller_id ∧
    (enqueue_step campaign_id shop_id acc sc).now = acc.now ∧
    (enqueue_step campaign_id shop_id acc sc).shops = acc.shops ∧
    (enqueue_step campaign_id shop_id acc sc).shop_customers = acc.shop_customers ∧
    (enqueue_step campaign_id shop_id acc sc).customers = acc.customers := by
  unfold enqueue_step
  split
  · split
    · exact ⟨rfl, rfl, rfl, rfl, rfl, rfl, rfl, rfl, rfl⟩
    · exact ⟨rfl, rfl, rfl, rfl, rfl, rfl, rfl, rfl, rfl⟩
  · exact ⟨rfl, rfl, rfl, rfl, rfl, rfl, rfl, rfl, rfl⟩

theorem enqueue_foldl_fields (campaign_id shop_id : Nat) (l : List ShopCustomer) :
    ∀ acc : Db,
    (l.foldl (enqueue_step campaign_id shop_id) acc).sellers = acc.sellers ∧
    (l.foldl (enqueue_step campaign_id shop_id) acc).seller_credits = acc.seller_credits ∧
    (l.foldl (enqueue_step campaign_id shop_id) acc).credit_txs = acc.credit_txs ∧
    (l.foldl (enqueue_step campaign_id shop_id) acc).campaigns = acc.campaigns ∧
    (l.foldl (enqueue_step campaign_id shop_id) acc).next_seller_id = acc.next_seller_id ∧
    (l.foldl (enqueue_step campaign_id shop_id) acc).now = acc.now ∧
    (l.foldl (enqueue_step campaign_id shop_id) acc).shops = acc.shops ∧
    (l.foldl (enqueue_step campaign_id shop_id) acc).shop_customers = acc.shop_customers ∧
    (l.foldl (enqueue_step campaign_id shop_id) acc).customers = acc.customers := by
  induction l with
  | nil => intro acc; exact ⟨rfl, rfl, rfl, rfl, rfl, rfl, rfl, rfl, rfl⟩
  | cons x xs ih =>
      intro acc
      have h1 := enqueue_step_fields campaign_id shop_id acc x
      have h2 := ih (enqueue_step campaign_id shop_id acc x)
      simp only [List.foldl_cons]
      exact ⟨h2.1.trans h1.1, h2.2.1.trans h1.2.1, h2.2.2.1.trans h1.2.2.1,
        h2.2.2.2.1.trans h1.2.2.2.1, h2.2.2.2.2.1.trans h1.2.2.2.2.1,
        h2.2.2.2.2.2.1.trans h1.2.2.2.2.2.1, h2.2.2.2.2.2.2.1.trans h1.2.2.2.2.2.2.1,
        h2.2.2.2.2.2.2.2.1.trans h1.2.2.2.2.2.2.2.1,
        h2.2.2.2.2.2.2.2.2.trans h1.2.2.2.2.2.2.2.2⟩

theorem ensure_credits_row_inv (db : Db) (sid : Nat) (hlt : sid < db.next_seller_id)
    (hWF : DbWF db) (hL : LedgerOk db) :
    DbWF (ensure_seller_credits_row db sid) ∧ LedgerOk (ensure_seller_credits_row db sid) := by
  unfold ensure_seller_credits_row
  by_cases h : db.seller_credits.any (fun sc => sc.seller_id == sid) = true
  · rw [if_pos h]; exact ⟨hWF, hL⟩
  · rw [if_neg h]
    have hno : ∀ sc ∈ db.seller_credits, sc.seller_id ≠ sid := by
      intro sc hsc heq
      exact h (List.any_eq_true.mpr ⟨sc, hsc, by simp [heq]⟩)
    have hnotx : ∀ t ∈ db.credit_txs, t.seller_id ≠ sid := by
      intro t ht heq
      obtain ⟨sc, hsc, hsceq⟩ := hWF.tx_has_credit_row t ht
      exact hno sc hsc (by rw [hsceq, heq])
    constructor
    · constructor
      · simp only [List.map_append, List.map_cons, List.map_nil]
        rw [List.nodup_append]
        refine ⟨hWF.credits_nodup, List.nodup_singleton _, ?_⟩
        intro a ha
        simp only [List.mem_singleton]
        obtain ⟨sc, hsc, rfl⟩ := List.mem_map.mp ha
        exact fun hc => hno sc hsc hc
      · exact hWF.sellers_id_nodup
      · exact hWF.sellers_tg_nodup
      · exact hWF.seller_id_lt
      · intro sc hsc
        rcases List.mem_append.mp hsc with hmem | hmem
        · exact hWF.credit_seller_lt sc hmem
        · rw [List.mem_singleton.mp hmem]
          exact hlt
      · intro tx htx
        rcases List.mem_append.mp htx with hmem | hmem
        · obtain ⟨sc, hsc, hsceq⟩ := hWF.tx_has_credit_row tx hmem
          exact ⟨sc, List.mem_append_left _ hsc, hsceq⟩
        · rw [List.mem_singleton.mp hmem]
          exact ⟨_, List.mem_append_right _ (List.mem_singleton_self _), rfl⟩
    · intro sc hsc
      rcases List.mem_append.mp hsc with hmem | hmem
      · rw [txSum_append_single, if_neg]
        · rw [add_zero]
          exact hL sc hmem
        · intro hc
          exact hno sc hmem hc.symm
      · rw [List.mem_singleton.mp hmem]
        rw [txSum_append_single, if_pos rfl, txSum_eq_zero db.credit_txs sid hnotx]
        simp

theorem ensure_seller_inv (db : Db) (tg : Nat) (hWF : DbWF db) (hL : LedgerOk db) :
    DbWF (ensure_seller db tg).2 ∧ LedgerOk (ensure_seller db tg).2 := by
  unfold ensure_seller
  cases hfind : db.sellers.find? (fun s => s.tg_user_id == tg) with
  | some s =>
      have hmem : s ∈ db.sellers := List.mem_of_find?_eq_some hfind
      exact ensure_credits_row_inv db s.id (hWF.seller_id_lt s hmem) hWF hL
  | none =>
      have hnotg : ∀ s ∈ db.sellers, s.tg_user_id ≠ tg := by
        intro s hs
        have := List.find?_eq_none.mp hfind s hs
        simpa using this
      set db1 : Db := { db with
        sellers := db.sellers ++ [{ id := db.next_seller_id, tg_user_id := tg }],
        next_seller_id := db.next_seller_id + 1 } with hdb1
      have hWF1 : DbWF db1 := by
        constructor
        · exact hWF.credits_nodup
        · simp only [hdb1, List.map_append, List.map_cons, List.map_nil]
          rw [List.nodup_append]
          refine ⟨hWF.sellers_id_nodup, List.nodup_singleton _, ?_⟩
          intro a ha
          simp only [List.mem_singleton]
          obtain ⟨s, hs, rfl⟩ := List.mem_map.mp ha
          have := hWF.seller_id_lt s hs
          omega
        · simp only [hdb1, List.map_append, List.map_cons, List.map_nil]
          rw [List.nodup_append]
          refine ⟨hWF.sellers_tg_nodup, List.nodup_singleton _, ?_⟩
          intro a ha
          simp only [List.mem_singleton]
          obtain ⟨s, hs, rfl⟩ := List.mem_map.mp ha
          exact hnotg s hs
        · intro s hs
          rcases List.mem_append.mp hs with hmem | hmem
          · have := hWF.seller_id_lt s hmem
            simp only [hdb1]
            omega
          · rw [List.mem_singleton.mp hmem]
            simp only [hdb1]
            omega
        · intro sc hsc
          have := hWF.credit_seller_lt sc hsc
          simp only [hdb1]
          omega
        · exact hWF.tx_has_credit_row
      have hL1 : LedgerOk db1 := hL
      have hlt1 : db.next_seller_id < db1.next_seller_id := by
        simp only [hdb1]
        omega
      exact ensure_credits_row_inv db1 db.next_seller_id hlt1 hWF1 hL1

theorem credits_map_keys (credits : List SellerCredit) (f : SellerCredit → SellerCredit)
    (hf : ∀ r, (f r).seller_id = r.seller_id) :
    (credits.map f).map (fun sc => sc.seller_id)
        = credits.map (fun sc => sc.seller_id) := by
  rw [List.map_map]
  exact List.map_congr_left (fun r _ => hf r)

theorem add_seller_credits_inv (db : Db) (sid : Nat) (delta : Int) (reason : String)
    (ip tc pc : Option String) (cid : Option Nat) (hWF : DbWF db) (hL : LedgerOk db)
    (b : Int) (db2 : Db)
    (hok : add_seller_credits db sid delta reason ip tc pc cid = .ok (b, db2)) :
    DbWF db2 ∧ LedgerOk db2 := by
  unfold add_seller_credits at hok
  by_cases h0 : (delta == 0) = true
  · rw [if_pos h0] at hok
    cases hfind : db.seller_credits.find? (fun sc => sc.seller_id == sid) with
    | some sc => rw [hfind] at hok; cases hok; exact ⟨hWF, hL⟩
    | none => rw [hfind] at hok; cases hok; exact ⟨hWF, hL⟩
  · rw [if_neg h0] at hok
    cases hfind : db.seller_credits.find? (fun sc => sc.seller_id == sid) with
    | none => rw [hfind] at hok; cases hok
    | some sc0 =>
        rw [hfind] at hok
        cases hok
        have hmem0 : sc0 ∈ db.seller_credits := List.mem_of_find?_eq_some hfind
        have hf : ∀ r : SellerCredit,
            ((if r.seller_id == sid then { r with balance := r.balance + delta }
              else r) : SellerCredit).seller_id = r.seller_id := by
          intro r
          split <;> rfl
        constructor
        · constructor
          · rw [credits_map_keys _ _ hf]
            exact hWF.credits_nodup
          · exact hWF.sellers_id_nodup
          · exact hWF.sellers_tg_nodup
          · exact hWF.seller_id_lt
          · intro sc hsc
            obtain ⟨r, hr, rfl⟩ := List.mem_map.mp hsc
            rw [hf r]
            exact hWF.credit_seller_lt r hr
          · intro tx htx
            rcases List.mem_append.mp htx with hmem | hmem
            · obtain ⟨sc, hsc, hsceq⟩ := hWF.tx_has_credit_row tx hmem
              refine ⟨_, List.mem_map_of_mem _ hsc, ?_⟩
              rw [hf sc]
              exact hsceq
            · rw [List.mem_singleton.mp hmem]
              refine ⟨_, List.mem_map_of_mem _ hmem0, ?_⟩
              rw [hf sc0]
              exact beq_iff_eq.mp (by
                have := List.find?_some hfind
                simpa using this)
        · intro sc hsc
          obtain ⟨r, hr, rfl⟩ := List.mem_map.mp hsc
          by_cases hkey : (r.seller_id == sid) = true
          · rw [if_pos hkey]
            have hkey2 : r.seller_id = sid := beq_iff_eq.mp hkey
            rw [txSum_append_single]
            dsimp only
            rw [hkey2, if_pos rfl]
            have := hL r hr
            rw [hkey2] at this
            omega
          · rw [if_neg hkey]
            rw [txSum_append_single, if_neg]
            · rw [add_zero]
              exact hL r hr
            · intro hc
              exact hkey (beq_iff_eq.mpr hc.symm)

theorem spend_one_credit_shape (credits : List SellerCredit) (sid : Nat) (b : Int)
    (out : List SellerCredit)
    (hsp : spend_one_credit credits sid = some (b, out)) :
    ∃ sc0 ∈ credits, sc0.seller_id = sid ∧ 0 < sc0.balance ∧ b = sc0.balance - 1 ∧
      out = credits.map (fun r =>
        if r.seller_id == sid && decide (0 < r.balance) then
          { r with balance := r.balance - 1 }
        else r) := by
  unfold spend_one_credit at hsp
  cases hfind : credits.find? (fun sc => sc.seller_id == sid && decide (0 < sc.balance)) with
  | none => rw [hfind] at hsp; cases hsp
  | some sc0 =>
      rw [hfind] at hsp
      cases hsp
      have hmem : sc0 ∈ credits := List.mem_of_find?_eq_some hfind
      have hpred := List.find?_some hfind
      simp only [Bool.and_eq_true, beq_iff_eq, decide_eq_true_eq] at hpred
      exact ⟨sc0, hmem, hpred.1, hpred.2, rfl, rfl⟩

theorem spend_one_credit_ledger (credits : List SellerCredit) (sid : Nat) (b : Int)
    (out : List SellerCredit) (txs : List CreditTx) (t : CreditTx)
    (hnodup : (credits.map (fun sc => sc.seller_id)).Nodup)
    (hL : ∀ sc ∈ credits, sc.balance = txSum txs sc.seller_id)
    (hsp : spend_one_credit credits sid = some (b, out))
    (hts : t.seller_id = sid) (htd : t.delta = -1) :
    ∀ sc ∈ out, sc.balance = txSum (txs ++ [t]) sc.seller_id := by
  obtain ⟨sc0, hmem0, hid0, hbal0, hb, hout⟩ := spend_one_credit_shape credits sid b out hsp
  subst hout
  intro sc hsc
  obtain ⟨r, hr, rfl⟩ := List.mem_map.mp hsc
  by_cases hcond : (r.seller_id == sid && decide (0 < r.balance)) = true
  · rw [if_pos hcond]
    simp only [Bool.and_eq_true, beq_iff_eq, decide_eq_true_eq] at hcond
    rw [txSum_append_single]
    dsimp only
    rw [hcond.1, hts, if_pos rfl, htd]
    have := hL r hr
    rw [hcond.1] at this
    omega
  · rw [if_neg hcond]
    simp only [Bool.and_eq_true, beq_iff_eq, decide_eq_true_eq, not_and] at hcond
    by_cases hkey : r.seller_id = sid
    · exfalso
      have hne : r ≠ sc0 := by
        intro heq
        rw [heq] at hcond
        exact hcond hid0 hbal0
      exact hne (List.inj_on_of_nodup_map hnodup hr hmem0 (by rw [hkey, hid0]))
    · rw [txSum_append_single, if_neg]
      · rw [add_zero]
        exact hL r hr
      · rw [hts]
        intro hc
        exact hkey hc.symm

theorem start_ok_fields (db : Db) (tg cid : Nat) (camp : Campaign) (sid : Nat)
    (nb : Int) (credits2 : List SellerCredit)
    (hfind : findCampaignForSeller db tg cid = some (camp, sid))
    (hg1 : (camp.status == "sending" || camp.status == "completed"
        || camp.status == "sent") = false)
    (hg2 : (camp.status == "canceled" || camp.status == "cancelled") = false)
    (hsp : spend_one_credit db.seller_credits sid = some (nb, credits2)) :
    (start_campaign_sending db tg cid).2.seller_credits = credits2 ∧
    (start_campaign_sending db tg cid).2.credit_txs = db.credit_txs ++
      [{ seller_id := sid, delta := -1, reason := "campaign_send",
         campaign_id := some cid, tg_payment_charge_id := none,
         provider_payment_charge_id := none, invoice_payload := none,
         balance_after := nb }] ∧
    (start_campaign_sending db tg cid).2.sellers = db.sellers ∧
    (start_campaign_sending db tg cid).2.next_seller_id = db.next_seller_id := by
  simp only [start_campaign_sending, hfind, hg1, hg2, Bool.false_eq_true,
    if_false, hsp]
  refine ⟨?_, ?_, ?_, ?_⟩
  · exact (enqueue_foldl_fields cid camp.shop_id db.shop_customers _).2.1
  · exact (enqueue_foldl_fields cid camp.shop_id db.shop_customers _).2.2.1
  · exact (enqueue_foldl_fields cid camp.shop_id db.shop_customers _).1
  · exact (enqueue_foldl_fields cid camp.shop_id db.shop_customers _).2.2.2.2.1

theorem inv_of_fields (db db2 : Db) (hWF : DbWF db)
    (credits2 : List SellerCredit) (t : CreditTx)
    (hcred : db2.seller_credits = credits2)
    (htxs : db2.credit_txs = db.credit_txs ++ [t])
    (hsell : db2.sellers = db.sellers)
    (hnext : db2.next_seller_id = db.next_seller_id)
    (hkeys : credits2.map (fun sc => sc.seller_id)
        = db.seller_credits.map (fun sc => sc.seller_id))
    (hballed : ∀ sc ∈ credits2, sc.balance = txSum (db.credit_txs ++ [t]) sc.seller_id)
    (htrow : ∃ sc ∈ credits2, sc.seller_id = t.seller_id) :
    DbWF db2 ∧ LedgerOk db2 := by
  constructor
  · constructor
    · rw [hcred, hkeys]
      exact hWF.credits_nodup
    · rw [hsell]
      exact hWF.sellers_id_nodup
    · rw [hsell]
      exact hWF.sellers_tg_nodup
    · rw [hsell, hnext]
      exact hWF.seller_id_lt
    · rw [hcred, hnext]
      intro sc hsc
      have hin : sc.seller_id ∈ db.seller_credits.map (fun sc => sc.seller_id) := by
        rw [← hkeys]
        exact List.mem_map_of_mem _ hsc
      obtain ⟨r, hr, hreq⟩ := List.mem_map.mp hin
      rw [← hreq]
      exact hWF.credit_seller_lt r hr
    · rw [htxs, hcred]
      intro tx htx
      rcases List.mem_append.mp htx with hm | hm
      · obtain ⟨sc, hsc, hsceq⟩ := hWF.tx_has_credit_row tx hm
        have hin : sc.seller_id ∈ credits2.map (fun sc => sc.seller_id) := by
          rw [hkeys]
          exact List.mem_map_of_mem _ hsc
        obtain ⟨r, hr, hreq⟩ := List.mem_map.mp hin
        exact ⟨r, hr, by rw [hreq, hsceq]⟩
      · rw [List.mem_singleton.mp hm]
        exact htrow
  · intro sc hsc
    rw [hcred] at hsc
    rw [htxs]
    exact hballed sc hsc

theorem start_campaign_sending_inv (db : Db) (tg cid : Nat)
    (hWF : DbWF db) (hL : LedgerOk db) :
    DbWF (start_campaign_sending db tg cid).2 ∧
    LedgerOk (start_campaign_sending db tg cid).2 := by
  cases hfind : findCampaignForSeller db tg cid with
  | none =>
      have : start_campaign_sending db tg cid = (.error "campaign_not_found", db) := by
        simp only [start_campaign_sending, hfind]
      rw [this]
      exact ⟨hWF, hL⟩
  | some pr =>
      obtain ⟨camp, sid⟩ := pr
      by_cases hg1 : (camp.status == "sending" || camp.status == "completed"
          || camp.status == "sent") = true
      · have : start_campaign_sending db tg cid = (.error "campaign_already_started", db) := by
          simp only [start_campaign_sending, hfind, hg1, if_true]
        rw [this]
        exact ⟨hWF, hL⟩
      · rw [Bool.not_eq_true] at hg1
        by_cases hg2 : (camp.status == "canceled" || camp.status == "cancelled") = true
        · have : start_campaign_sending db tg cid = (.error "campaign_invalid_status", db) := by
            simp only [start_campaign_sending, hfind, hg1, hg2, Bool.false_eq_true,
              if_false, if_true]
          rw [this]
          exact ⟨hWF, hL⟩
        · rw [Bool.not_eq_true] at hg2
          cases hsp : spend_one_credit db.seller_credits sid with
          | none =>
              have : start_campaign_sending db tg cid = (.error "no_credits", db) := by
                simp only [start_campaign_sending, hfind, hg1, hg2, Bool.false_eq_true,
                  if_false, hsp]
              rw [this]
              exact ⟨hWF, hL⟩
          | some pr2 =>
              obtain ⟨nb, credits2⟩ := pr2
              obtain ⟨hcred, htxs, hsell, hnext⟩ :=
                start_ok_fields db tg cid camp sid nb credits2 hfind hg1 hg2 hsp
              obtain ⟨sc0, hmem0, hid0, hbal0, hnb, hout⟩ :=
                spend_one_credit_shape db.seller_credits sid nb credits2 hsp
              have hf : ∀ r : SellerCredit,
                  ((if r.seller_id == sid && decide (0 < r.balance) then
                    { r with balance := r.balance - 1 } else r) : SellerCredit).seller_id
                    = r.seller_id := by
                intro r
                split <;> rfl
              refine inv_of_fields db _ hWF credits2 _ hcred htxs hsell hnext ?_ ?_ ?_
              · rw [hout]
                exact credits_map_keys _ _ hf
              · exact spend_one_credit_ledger db.seller_credits sid nb credits2
                  db.credit_txs _ hWF.credits_nodup hL hsp rfl rfl
              · refine ⟨(if sc0.seller_id == sid && decide (0 < sc0.balance) then
                    { sc0 with balance := sc0.balance - 1 } else sc0), ?_, ?_⟩
                · rw [hout]
                  exact List.mem_map_of_mem _ hmem0
                · rw [hf sc0]
                  exact hid0

theorem applyCreditOp_inv (db : Db) (op : CreditOp)
    (hWF : DbWF db) (hL : LedgerOk db) :
    DbWF (applyCreditOp db op) ∧ LedgerOk (applyCreditOp db op) := by
  cases op with
  | ensure tg => exact ensure_seller_inv db tg hWF hL
  | grant sid d r ip tc pc cid =>
      dsimp only [applyCreditOp]
      cases hok : add_seller_credits db sid d r ip tc pc cid with
      | ok pr =>
          obtain ⟨b, db2⟩ := pr
          exact add_seller_credits_inv db sid d r ip tc pc cid hWF hL b db2 hok
      | error e => exact ⟨hWF, hL⟩
  | startCampaign tg cid => exact start_campaign_sending_inv db tg cid hWF hL

theorem applyCreditOp_cases (db : Db) (op : CreditOp) :
    ((applyCreditOp db op).seller_credits = db.seller_credits ∧
      (applyCreditOp db op).credit_txs = db.credit_txs) ∨
    ∃ t : CreditTx, (applyCreditOp db op).credit_txs = db.credit_txs ++ [t] := by
  cases op with
  | ensure tg =>
      dsimp only [applyCreditOp]
      unfold ensure_seller
      cases hfind : db.sellers.find? (fun s => s.tg_user_id == tg) with
      | some s =>
          dsimp only
          unfold ensure_seller_credits_row
          by_cases h : db.seller_credits.any (fun sc => sc.seller_id == s.id) = true
          · rw [if_pos h]
            exact Or.inl ⟨rfl, rfl⟩
          · rw [if_neg h]
            exact Or.inr ⟨_, rfl⟩
      | none =>
          dsimp only
          unfold ensure_seller_credits_row
          by_cases h : db.seller_credits.any
              (fun sc => sc.seller_id == db.next_seller_id) = true
          · rw [if_pos h]
            exact Or.inl ⟨rfl, rfl⟩
          · rw [if_neg h]
            exact Or.inr ⟨_, rfl⟩
  | grant sid d r ip tc pc cid =>
      dsimp only [applyCreditOp]
      cases hok : add_seller_credits db sid d r ip tc pc cid with
      | error e => exact Or.inl ⟨rfl, rfl⟩
      | ok pr =>
          obtain ⟨b, db2⟩ := pr
          unfold add_seller_credits at hok
          by_cases h0 : (d == 0) = true
          · rw [if_pos h0] at hok
            cases hfind : db.seller_credits.find? (fun sc => sc.seller_id == sid) with
            | some sc => rw [hfind] at hok; cases hok; exact Or.inl ⟨rfl, rfl⟩
            | none => rw [hfind] at hok; cases hok; exact Or.inl ⟨rfl, rfl⟩
          · rw [if_neg h0] at hok
            cases hfind : db.seller_credits.find? (fun sc => sc.seller_id == sid) with
            | none => rw [hfind] at hok; cases hok
            | some sc0 =>
                rw [hfind] at hok
                cases hok
                exact Or.inr ⟨_, rfl⟩
  | startCampaign tg cid =>
      dsimp only [applyCreditOp]
      cases hfind : findCampaignForSeller db tg cid with
      | none =>
          have : start_campaign_sending db tg cid = (.error "campaign_not_found", db) := by
            simp only [start_campaign_sending, hfind]
          rw [this]
          exact Or.inl ⟨rfl, rfl⟩
      | some pr =>
          obtain ⟨camp, sid⟩ := pr
          by_cases hg1 : (camp.status == "sending" || camp.status == "completed"
              || camp.status == "sent") = true
          · have : start_campaign_sending db tg cid
                = (.error "campaign_already_started", db) := by
              simp only [start_campaign_sending, hfind, hg1, if_true]
            rw [this]
            exact Or.inl ⟨rfl, rfl⟩
          · rw [Bool.not_eq_true] at hg1
            by_cases hg2 : (camp.status == "canceled" || camp.status == "cancelled") = true
            · have : start_campaign_sending db tg cid
                  = (.error "campaign_invalid_status", db) := by
                simp only [start_campaign_sending, hfind, hg1, hg2, Bool.false_eq_true,
                  if_false, if_true]
              rw [this]
              exact Or.inl ⟨rfl, rfl⟩
            · rw [Bool.not_eq_true] at hg2
              cases hsp : spend_one_credit db.seller_credits sid with
              | none =>
                  have : start_campaign_sending db tg cid = (.error "no_credits", db) := by
                    simp only [start_campaign_sending, hfind, hg1, hg2,
                      Bool.false_eq_true, if_false, hsp]
                  rw [this]
                  exact Or.inl ⟨rfl, rfl⟩
              | some pr2 =>
                  obtain ⟨nb, credits2⟩ := pr2
                  exact Or.inr ⟨_,
                    (start_ok_fields db tg cid camp sid nb credits2 hfind hg1 hg2 hsp).2.1⟩

/-! ### C2 -/

/-- C2: starting from a well-formed state whose ledger is conserved, after
any sequence of in-scope credit operations (signup grant, payment/admin
grants, campaign-start spend — each atomic with rollback on error), every
seller's materialized balance equals the sum of that seller's ledger deltas;
and any single operation that changes the balance table appends exactly one
ledger transaction row in the same atomic unit. -/
theorem ledger_conservation (db : Db) (hWF : DbWF db) (hL : LedgerOk db)
    (ops : List CreditOp) :
    LedgerOk (ops.foldl applyCreditOp db) ∧
    ∀ op : CreditOp,
      (applyCreditOp db op).seller_credits ≠ db.seller_credits →
      ∃ t : CreditTx, (applyCreditOp db op).credit_txs = db.credit_txs ++ [t] := by
  constructor
  · have main : ∀ (l : List CreditOp) (d : Db), DbWF d → LedgerOk d →
        DbWF (l.foldl applyCreditOp d) ∧ LedgerOk (l.foldl applyCreditOp d) := by
      intro l
      induction l with
      | nil => intro d h1 h2; exact ⟨h1, h2⟩
      | cons x xs ih =>
          intro d h1 h2
          obtain ⟨h3, h4⟩ := applyCreditOp_inv d x h1 h2
          exact ih _ h3 h4
    exact (main ops db hWF hL).2
  · intro op hch
    rcases applyCreditOp_cases db op with ⟨hsame, _⟩ | h
    · exact absurd hsame hch
    · exact h

/-- C2 witness: the concrete conserved state (balance 3, one `free_signup`
ledger row) stays conserved after a successful campaign start. -/
theorem ledger_conservation_witness :
    LedgerOk ([CreditOp.startCampaign 100 10].foldl applyCreditOp dbPaid) :=
  (ledger_conservation dbPaid
    (by refine ⟨?_, ?_, ?_, ?_, ?_, ?_⟩ <;> decide)
    (by intro sc hsc; fin_cases hsc; decide)
    [CreditOp.startCampaign 100 10]).1

/-! ### C5 -/

theorem ensure_credits_row_nonneg (db : Db) (sid : Nat) (hNN : NonNegBalances db) :
    NonNegBalances (ensure_seller_credits_row db sid) := by
  unfold ensure_seller_credits_row
  by_cases h : db.seller_credits.any (fun sc => sc.seller_id == sid) = true
  · rw [if_pos h]
    exact hNN
  · rw [if_neg h]
    intro sc hsc
    rcases List.mem_append.mp hsc with hm | hm
    · exact hNN sc hm
    · rw [List.mem_singleton.mp hm]
      norm_num [DEFAULT_FREE_CREDITS_ON_SIGNUP]

theorem applyCreditOp_nonneg (db : Db) (op : CreditOp)
    (hNN : NonNegBalances db) (hpos : GrantsPositive op) :
    NonNegBalances (applyCreditOp db op) := by
  cases op with
  | ensure tg =>
      dsimp only [applyCreditOp]
      unfold ensure_seller
      cases hfind : db.sellers.find? (fun s => s.tg_user_id == tg) with
      | some s =>
          dsimp only
          exact ensure_credits_row_nonneg db s.id hNN
      | none =>
          dsimp only
          exact ensure_credits_row_nonneg _ db.next_seller_id hNN
  | grant sid d r ip tc pc cid =>
      dsimp only [applyCreditOp]
      cases hok : add_seller_credits db sid d r ip tc pc cid with
      | error e => exact hNN
      | ok pr =>
          obtain ⟨b, db2⟩ := pr
          unfold add_seller_credits at hok
          by_cases h0 : (d == 0) = true
          · rw [if_pos h0] at hok
            cases hfind : db.seller_credits.find? (fun sc => sc.seller_id == sid) with
            | some sc => rw [hfind] at hok; cases hok; exact hNN
            | none => rw [hfind] at hok; cases hok; exact hNN
          · rw [if_neg h0] at hok
            cases hfind : db.seller_credits.find? (fun sc => sc.seller_id == sid) with
            | none => rw [hfind] at hok; cases hok
            | some sc0 =>
                rw [hfind] at hok
                cases hok
                have hd : 0 < d := hpos
                intro sc hsc
                obtain ⟨r, hr, rfl⟩ := List.mem_map.mp hsc
                have hrb := hNN r hr
                split
                · dsimp only
                  omega
                · exact hrb
  | startCampaign tg cid =>
      dsimp only [applyCreditOp]
      cases hfind : findCampaignForSeller db tg cid with
      | none =>
          have : start_campaign_sending db tg cid = (.error "campaign_not_found", db) := by
            simp only [start_campaign_sending, hfind]
          rw [this]
          exact hNN
      | some pr =>
          obtain ⟨camp, sid⟩ := pr
          by_cases hg1 : (camp.status == "sending" || camp.status == "completed"
              || camp.status == "sent") = true
          · have : start_campaign_sending db tg cid
                = (.error "campaign_already_started", db) := by
              simp only [start_campaign_sending, hfind, hg1, if_true]
            rw [this]
            exact hNN
          · rw [Bool.not_eq_true] at hg1
            by_cases hg2 : (camp.status == "canceled" || camp.status == "cancelled") = true
            · have : start_campaign_sending db tg cid
                  = (.error "campaign_invalid_status", db) := by
                simp only [start_campaign_sending, hfind, hg1, hg2, Bool.false_eq_true,
                  if_false, if_true]
              rw [this]
              exact hNN
            · rw [Bool.not_eq_true] at hg2
              cases hsp : spend_one_credit db.seller_credits sid with
              | none =>
                  have : start_campaign_sending db tg cid = (.error "no_credits", db) := by
                    simp only [start_campaign_sending, hfind, hg1, hg2,
                      Bool.false_eq_true, if_false, hsp]
                  rw [this]
                  exact hNN
              | some pr2 =>
                  obtain ⟨nb, credits2⟩ := pr2
                  have hcred := (start_ok_fields db tg cid camp sid nb credits2
                    hfind hg1 hg2 hsp).1
                  obtain ⟨sc0, hmem0, hid0, hbal0, hnb, hout⟩ :=
                    spend_one_credit_shape db.seller_credits sid nb credits2 hsp
                  intro sc hsc
                  rw [hcred, hout] at hsc
                  obtain ⟨r, hr, rfl⟩ := List.mem_map.mp hsc
                  have hrb := hNN r hr
                  split
                  · rename_i h
                    simp only [Bool.and_eq_true, beq_iff_eq, decide_eq_true_eq] at h
                    dsimp only
                    omega
                  · exact hrb

/-- C5: starting from non-negative balances, after any sequence of in-scope
credit operations (the signup grant, payment/admin grants — which the
callers only invoke with positive amounts — and the conditional spend inside
Start) every balance stays `≥ 0`; moreover the spend succeeds only when a
balance row with at least 1 credit exists at the moment of the conditional
update, and then returns that balance minus one (never negative). -/
theorem no_negative_balance (db : Db) (hNN : NonNegBalances db)
    (ops : List CreditOp) (hpos : ∀ op ∈ ops, GrantsPositive op) :
    NonNegBalances (ops.foldl applyCreditOp db) ∧
    ∀ (credits : List SellerCredit) (sid : Nat) (b : Int) (out : List SellerCredit),
      spend_one_credit credits sid = some (b, out) →
      ∃ sc ∈ credits, sc.seller_id = sid ∧ 1 ≤ sc.balance ∧ b = sc.balance - 1 := by
  constructor
  · have main : ∀ (l : List CreditOp) (d : Db), NonNegBalances d →
        (∀ op ∈ l, GrantsPositive op) → NonNegBalances (l.foldl applyCreditOp d) := by
      intro l
      induction l with
      | nil => intro d h1 _; exact h1
      | cons x xs ih =>
          intro d h1 h2
          exact ih _ (applyCreditOp_nonneg d x h1 (h2 x (List.mem_cons_self x xs)))
            (fun op hop => h2 op (List.mem_cons_of_mem x hop))
    exact main ops db hNN hpos
  · intro credits sid b out hsp
    obtain ⟨sc0, hmem0, hid0, hbal0, hb, _⟩ :=
      spend_one_credit_shape credits sid b out hsp
    exact ⟨sc0, hmem0, hid0, by omega, hb⟩

/-- C5 witness: from the concrete non-negative state, a start (which spends
one credit) keeps all balances non-negative. -/
theorem no_negative_balance_witness :
    NonNegBalances ([CreditOp.startCampaign 100 10].foldl applyCreditOp dbPaid) :=
  (no_negative_balance dbPaid (by intro sc hsc; fin_cases hsc; decide)
    [CreditOp.startCampaign 100 10]
    (by intro op hop; fin_cases hop; trivial)).1

/-! ### C3 -/

theorem ensure_credits_row_sellers (db : Db) (sid : Nat) :
    (ensure_seller_credits_row db sid).sellers = db.sellers := by
  unfold ensure_seller_credits_row
  split <;> rfl

theorem ensure_credits_row_credits_mem (db : Db) (sid : Nat) :
    ∃ sc ∈ (ensure_seller_credits_row db sid).seller_credits, sc.seller_id = sid := by
  unfold ensure_seller_credits_row
  split
  · rename_i h
    obtain ⟨sc, hsc, hp⟩ := List.any_eq_true.mp h
    exact ⟨sc, hsc, beq_iff_eq.mp hp⟩
  · exact ⟨_, List.mem_append_right _ (List.mem_singleton_self _), rfl⟩

theorem ensure_credits_row_txs_from (db : Db) (sid : Nat) :
    ∀ tx ∈ (ensure_seller_credits_row db sid).credit_txs,
      tx ∈ db.credit_txs ∨ tx.tg_payment_charge_id = none := by
  unfold ensure_seller_credits_row
  split
  · intro tx htx
    exact Or.inl htx
  · intro tx htx
    rcases List.mem_append.mp htx with h | h
    · exact Or.inl h
    · rw [List.mem_singleton.mp h]
      exact Or.inr rfl

theorem ensure_seller_find_self (db : Db) (tg : Nat) :
    (ensure_seller db tg).2.sellers.find? (fun s => s.tg_user_id == tg)
      = some { id := (ensure_seller db tg).1, tg_user_id := tg } := by
  unfold ensure_seller
  cases hfind : db.sellers.find? (fun s => s.tg_user_id == tg) with
  | some s =>
      dsimp only
      rw [ensure_credits_row_sellers, hfind]
      have hp : s.tg_user_id = tg := by simpa using List.find?_some hfind
      obtain ⟨sid0, tg0⟩ := s
      dsimp only at hp ⊢
      rw [hp]
  | none =>
      dsimp only
      rw [ensure_credits_row_sellers]
      dsimp only
      rw [List.find?_append, hfind, Option.none_or, List.find?_singleton, if_pos]
      simp

theorem ensure_seller_credits_mem (db : Db) (tg : Nat) :
    ∃ sc ∈ (ensure_seller db tg).2.seller_credits,
      sc.seller_id = (ensure_seller db tg).1 := by
  unfold ensure_seller
  cases hfind : db.sellers.find? (fun s => s.tg_user_id == tg) with
  | some s => exact ensure_credits_row_credits_mem db s.id
  | none => exact ensure_credits_row_credits_mem _ db.next_seller_id

theorem ensure_seller_txs_from (db : Db) (tg : Nat) :
    ∀ tx ∈ (ensure_seller db tg).2.credit_txs,
      tx ∈ db.credit_txs ∨ tx.tg_payment_charge_id = none := by
  unfold ensure_seller
  cases hfind : db.sellers.find? (fun s => s.tg_user_id == tg) with
  | some s => exact ensure_credits_row_txs_from db s.id
  | none => exact ensure_credits_row_txs_from _ db.next_seller_id

theorem find?_map_key (credits : List SellerCredit) (sid : Nat)
    (f : SellerCredit → SellerCredit) (hf : ∀ r, (f r).seller_id = r.seller_id) :
    (credits.map f).find? (fun sc => sc.seller_id == sid)
      = (credits.find? (fun sc => sc.seller_id == sid)).map f := by
  have hcomp : ((fun sc : SellerCredit => sc.seller_id == sid) ∘ f)
      = (fun sc : SellerCredit => sc.seller_id == sid) := by
    funext r
    simp [Function.comp, hf r]
  rw [List.find?_map, hcomp]

/-- C3: on a fresh external charge id (no ledger row carries it yet), the
payment handler grants once and returns balance `b1`; re-delivering the very
same payment event is a no-op returning the same balance and state, and for
every seller at most one ledger row carries that charge id. -/
theorem grant_idempotent (db : Db) (tg qty : Nat) (hq : 0 < qty)
    (payload charge pcharge : String) (hch : charge ≠ "")
    (hfresh : ∀ tx ∈ db.credit_txs, tx.tg_payment_charge_id ≠ some charge) :
    ∃ b1 db1,
      successful_payment_credits_pack db tg qty payload charge pcharge
        = .ok (b1, db1) ∧
      successful_payment_credits_pack db1 tg qty payload charge pcharge
        = .ok (b1, db1) ∧
      ∀ sid : Nat,
        (db1.credit_txs.filter (fun tx =>
          tx.seller_id == sid && tx.tg_payment_charge_id == some charge)).length ≤ 1 := by
  -- Shorthands for the state after the first ensure_seller.
  set sid := (ensure_seller db tg).1 with hsid
  set dbA := (ensure_seller db tg).2 with hdbA
  have hAfresh : ∀ tx ∈ dbA.credit_txs, tx.tg_payment_charge_id ≠ some charge := by
    intro tx htx
    rcases ensure_seller_txs_from db tg tx htx with h | h
    · exact hfresh tx h
    · rw [h]
      exact fun hc => Option.noConfusion hc
  have hhasA : has_seller_credit_tx_by_tg_charge_id dbA sid (some charge) = false := by
    unfold has_seller_credit_tx_by_tg_charge_id
    dsimp only
    rw [if_neg hch]
    rw [List.any_eq_false]
    intro tx htx
    simp only [Bool.and_eq_true, beq_iff_eq, not_and]
    intro _
    exact fun hc => hAfresh tx htx (by simpa using hc)
  -- The credits row for sid exists after ensure_seller, so the grant succeeds.
  obtain ⟨scrow, hscrow_mem, hscrow_id⟩ := ensure_seller_credits_mem db tg
  have hfindsome : (dbA.seller_credits.find? (fun sc => sc.seller_id == sid)).isSome = true := by
    rw [List.find?_isSome]
    refine ⟨scrow, hscrow_mem, ?_⟩
    rw [beq_iff_eq, hscrow_id]
  obtain ⟨sc0, hfind0⟩ := Option.isSome_iff_exists.mp hfindsome
  have hsc0_mem : sc0 ∈ dbA.seller_credits := List.mem_of_find?_eq_some hfind0
  have hkey0 : sc0.seller_id = sid := by simpa using List.find?_some hfind0
  have hqne : ((Int.ofNat qty) == 0) = false := by
    rw [beq_eq_false_iff_ne, Int.ofNat_eq_coe]
    omega
  -- The single grant transaction row.
  set tx1 : CreditTx :=
    { seller_id := sid
      delta := Int.ofNat qty
      reason := "payment_pack_" ++ toString qty
      campaign_id := none
      tg_payment_charge_id := some charge
      provider_payment_charge_id := some pcharge
      invoice_payload := some payload
      balance_after := sc0.balance + Int.ofNat qty } with htx1
  set f2 : SellerCredit → SellerCredit := fun r =>
    if r.seller_id == sid then { r with balance := r.balance + Int.ofNat qty } else r
    with hf2
  have hf2key : ∀ r : SellerCredit, (f2 r).seller_id = r.seller_id := by
    intro r
    rw [hf2]
    dsimp only
    split <;> rfl
  set db2 : Db := { dbA with
    seller_credits := dbA.seller_credits.map f2
    credit_txs := dbA.credit_txs ++ [tx1] } with hdb2
  have hgrant : add_seller_credits dbA sid (Int.ofNat qty)
      ("payment_pack_" ++ toString qty) (some payload) (some charge) (some pcharge) none
      = .ok (sc0.balance + Int.ofNat qty, db2) := by
    unfold add_seller_credits
    rw [if_neg (by rw [hqne]; exact fun hc => Bool.noConfusion hc), hfind0]
  have hcall1 : successful_payment_credits_pack db tg qty payload charge pcharge
      = .ok (sc0.balance + Int.ofNat qty, db2) := by
    unfold successful_payment_credits_pack
    dsimp only
    rw [← hsid, ← hdbA, hhasA]
    simp only [Bool.false_eq_true, if_false]
    exact hgrant
  refine ⟨sc0.balance + Int.ofNat qty, db2, hcall1, ?_, ?_⟩
  · -- Second call: ensure_seller finds the seller and the credits row, the
    -- charge id is now present, and the current balance is returned.
    have hsellers2 : db2.sellers = dbA.sellers := rfl
    have hfind2 : db2.sellers.find? (fun s => s.tg_user_id == tg)
        = some { id := sid, tg_user_id := tg } := by
      rw [hsellers2]
      exact ensure_seller_find_self db tg
    have hensure2 : ensure_seller db2 tg = (sid, db2) := by
      unfold ensure_seller
      rw [hfind2]
      dsimp only
      have hany : db2.seller_credits.any (fun sc => sc.seller_id == sid) = true := by
        rw [List.any_eq_true]
        refine ⟨f2 sc0, List.mem_map_of_mem _ hsc0_mem, ?_⟩
        rw [beq_iff_eq, hf2key sc0]
        exact hkey0
      unfold ensure_seller_credits_row
      rw [if_pos hany]
    have hhas2 : has_seller_credit_tx_by_tg_charge_id db2 sid (some charge) = true := by
      unfold has_seller_credit_tx_by_tg_charge_id
      dsimp only
      rw [if_neg hch]
      rw [List.any_eq_true]
      refine ⟨tx1, ?_, by rw [htx1]; simp⟩
      exact List.mem_append_right _ (List.mem_singleton_self _)
    have hget2 : get_seller_credits db2 tg = sc0.balance + Int.ofNat qty := by
      unfold get_seller_credits
      rw [hfind2]
      dsimp only
      have : db2.seller_credits.find? (fun sc => sc.seller_id == sid)
          = some (f2 sc0) := by
        have hmap : db2.seller_credits = dbA.seller_credits.map f2 := rfl
        rw [hmap, find?_map_key dbA.seller_credits sid f2 hf2key, hfind0]
        rfl
      rw [this]
      rw [hf2]
      dsimp only
      rw [if_pos (by rw [beq_iff_eq]; exact hkey0)]
    unfold successful_payment_credits_pack
    rw [hensure2]
    dsimp only
    rw [hhas2]
    simp only [if_true, hget2]
  · -- At most one ledger row per seller carries this charge id.
    intro sid2
    have hdb2txs : db2.credit_txs = dbA.credit_txs ++ [tx1] := rfl
    rw [hdb2txs, List.filter_append]
    have hleft : dbA.credit_txs.filter (fun tx =>
        tx.seller_id == sid2 && tx.tg_payment_charge_id == some charge) = [] := by
      rw [List.filter_eq_nil_iff]
      intro tx htx
      simp only [Bool.and_eq_true, not_and]
      intro _
      exact fun hc => hAfresh tx htx (by simpa using hc)
    rw [hleft, List.nil_append]
    rw [List.filter_cons]
    split
    · simp
    · simp

/-- C3 witness: on the concrete state (fresh charge id "ch1"), the handler
grants 3 credits to the balance of 3 giving 6, and the re-delivered event is
a no-op returning the same balance and state. -/
theorem grant_idempotent_witness :
    ∃ b1 db1,
      successful_payment_credits_pack dbPaid 100 3 "credits_pack:3" "ch1" "p1"
        = .ok (b1, db1) ∧
      successful_payment_credits_pack db1 100 3 "credits_pack:3" "ch1" "p1"
        = .ok (b1, db1) ∧
      ∀ sid : Nat,
        (db1.credit_txs.filter (fun tx =>
          tx.seller_id == sid && tx.tg_payment_charge_id == some "ch1")).length ≤ 1 :=
  grant_idempotent dbPaid 100 3 (by norm_num) "credits_pack:3" "ch1" "p1"
    (by decide) (by intro tx htx; fin_cases htx; decide)

end LoyaltyBot
